import Mathlib

/-!
Verification development for the metabolic-ninja design pipeline.

The definitions below are a shallow embedding of the Python sources of the
repository (src/src/metabolic_ninja and src/src/worker).  Pure functions are
translated to Lean functions; Python dictionaries are translated to
association lists with the insertion semantics of `dict` (first-insertion
key order, later assignments overwrite the value in place); code that can
raise is translated to `Except`/`Option`; floats that can be NaN are
translated to an explicit value type with a NaN constructor; external
library calls (the LP solver, the cameo optimizers) enter as explicit
function parameters.

Layout: all definitions come first, then the supporting lemmas, then one
theorem per specification claim (with witnesses / counterexamples).
-/

namespace MetabolicNinja

/-! # Definitions -/

/-! ## Python `dict` embedding

A Python `dict` keyed by strings: an association list in first-insertion
key order.  `dinsert` is `d[k] = v`: it overwrites the value in place when
the key is present and appends otherwise. -/

def dinsert {α : Type} : List (String × α) → String → α → List (String × α)
  | [], k, v => [(k, v)]
  | p :: ps, k, v => if p.1 = k then (k, v) :: ps else p :: dinsert ps k v

def dkeys {α : Type} (d : List (String × α)) : List String :=
  d.map Prod.fst

def dlookup {α : Type} (d : List (String × α)) (k : String) : Option α :=
  (d.find? (fun p => p.1 = k)).map Prod.snd

/-- Build a dict from a list of key-value pairs, as a Python dict
comprehension does: later pairs overwrite earlier ones. -/
def dictOfList {α : Type} (l : List (String × α)) : List (String × α) :=
  l.foldl (fun d p => dinsert d p.1 p.2) []

/-! ## Chemical Formula Analyzer
(src/src/metabolic_ninja/worker/helpers.py, lines 28 to 38)

`count_atoms` applies the regex `(?P<atom>[A-Z][a-z]?)(?P<count>[0-9]*)` via
`finditer` to the formula string and builds a dict from atom symbol to count
(count 1 when the digit group is empty).  `findAtomsF` embeds `finditer`
with that pattern: scan left to right, skip any character that cannot start
a match, and at an uppercase letter consume one optional lowercase letter
and then a maximal (possibly empty) digit run. -/

namespace helpers

/-- Consume a maximal digit run, as `[0-9]*` does. -/
def takeDigits : List Char → List Char × List Char
  | [] => ([], [])
  | c :: cs =>
    if c.isDigit then
      let r := takeDigits cs
      (c :: r.1, r.2)
    else ([], c :: cs)

/-- Value of a digit string, as Python `int` on the captured count group. -/
def digitsToNat (l : List Char) : ℕ :=
  l.foldl (fun acc c => 10 * acc + (c.toNat - 48)) 0

/-- All matches of `([A-Z][a-z]?)([0-9]*)` in scan order, as (symbol, digit
run) pairs.  The fuel argument only makes the recursion structural; one unit
of fuel is spent per scanned position, so fuel `l.length` always suffices
(`findAtoms` below). -/
def findAtomsF : ℕ → List Char → List (String × List Char)
  | 0, _ => []
  | _ + 1, [] => []
  | fuel + 1, c :: cs =>
    if c.isUpper then
      match cs with
      | [] => [(⟨[c]⟩, [])]
      | d :: cs2 =>
        if d.isLower then
          (⟨[c, d]⟩, (takeDigits cs2).1) :: findAtomsF fuel (takeDigits cs2).2
        else
          (⟨[c]⟩, (takeDigits cs).1) :: findAtomsF fuel (takeDigits cs).2
    else
      findAtomsF fuel cs

def findAtoms (l : List Char) : List (String × List Char) :=
  findAtomsF l.length l

/-- Embedding of `count_atoms` (helpers.py line 31): a dict from atom symbol
to written count, implicit count 1 when the digit group is empty. -/
def count_atoms (formula : String) : List (String × ℕ) :=
  dictOfList ((findAtoms formula.data).map (fun m =>
    (m.1, if m.2.length = 0 then 1 else digitsToNat m.2)))

/-- Well-formedness of one token of a `(Element Count?)*` formula: the
symbol is one uppercase letter optionally followed by one lowercase letter,
and the count is a (possibly empty) digit run. -/
def validTok (t : String × List Char) : Bool :=
  (match t.1.data with
   | [u] => u.isUpper
   | [u, l] => u.isUpper && l.isLower
   | _ => false) && t.2.all Char.isDigit

/-- The formula string written for one (symbol, count digits) token. -/
def renderTok (t : String × List Char) : List Char := t.1.data ++ t.2

/-- The formula string written for a token list. -/
def renderToks (ts : List (String × List Char)) : List Char :=
  (ts.map renderTok).flatten

/-! ## Chemical linkage strength and the exotic-cofactor walk
(src/src/metabolic_ninja/worker/helpers.py, lines 41 to 178) -/

/-- Embedding of `compute_chemical_linkage_strength` (helpers.py line 41):
sum the pointwise minima of the two atom-count maps over their union of
atoms with hydrogen removed, normalized by the larger of the two total
counts.  `none` is Python's `ZeroDivisionError`, raised when both totals on
the considered atoms are zero. -/
def compute_chemical_linkage_strength
    (counts_a counts_d : List (String × ℕ)) : Option ℚ :=
  let atoms := ((dkeys counts_a).toFinset ∪ (dkeys counts_d).toFinset).erase "H"
  let scl := atoms.sum (fun atom =>
    min ((dlookup counts_a atom).getD 0) ((dlookup counts_d atom).getD 0))
  let a_total := atoms.sum (fun atom => (dlookup counts_a atom).getD 0)
  let d_total := atoms.sum (fun atom => (dlookup counts_d atom).getD 0)
  if max a_total d_total = 0 then none
  else some ((scl : ℚ) / (max a_total d_total : ℚ))

/-- A compound: identity plus molecular formula. -/
structure Metabolite where
  id : String
  formula : String
deriving DecidableEq

/-- A reaction with its substrate and product compound lists (the forward
reading; the walk flips them on negative flux). -/
structure Reaction where
  id : String
  reactants : List Metabolite
  products : List Metabolite
deriving DecidableEq

/-- `reaction.metabolites` of cobra: every compound of the reaction. -/
def Reaction.mets (r : Reaction) : List Metabolite :=
  r.reactants ++ r.products

/-- A predicted heterologous pathway: pathway reactions, adapter reactions
(native to foreign bridges, single-compound products), exchange/demand
reactions and the product demand reaction. -/
structure Pathway where
  reactions : List Reaction
  adapters : List Reaction
  exchanges : List Reaction
  product : Reaction
deriving DecidableEq

/-- `target.reactions & heterologous_reactions`: the heterologous reactions
a compound participates in (a deterministic list standing for the Python
set). -/
def metReactions (m : Metabolite) (het : List Reaction) : List Reaction :=
  het.filter (fun r => decide (m ∈ r.reactants ∨ m ∈ r.products))

/-- Python exceptions surfaced by the walk. -/
inductive PyErr
  | keyError
  | zeroDivisionError
  | indexError
deriving DecidableEq

instance exceptDecEq {ε α : Type} [DecidableEq ε] [DecidableEq α] :
    DecidableEq (Except ε α) := fun a b =>
  match a, b with
  | Except.error e, Except.error f =>
    if h : e = f then Decidable.isTrue (h ▸ rfl)
    else Decidable.isFalse (fun hh => h (by injection hh))
  | Except.ok x, Except.ok y =>
    if h : x = y then Decidable.isTrue (h ▸ rfl)
    else Decidable.isFalse (fun hh => h (by injection hh))
  | Except.error _, Except.ok _ => Decidable.isFalse (fun hh => by injection hh)
  | Except.ok _, Except.error _ => Decidable.isFalse (fun hh => by injection hh)

/-- Python `set(l)`: deduplicated, keeping first occurrences (a
deterministic order standing for the Python set iteration order). -/
def pyset (l : List Metabolite) : List Metabolite := l.dedup

/-- `options.sort(key=itemgetter(1)); options.pop()`: with a stable
ascending sort the popped element is the last entry among those of maximal
score, which this fold selects directly; `none` is the `IndexError` of
popping an empty list. -/
def selectPrecursor : List (Metabolite × ℚ) → Option (Metabolite × ℚ)
  | [] => none
  | o :: os =>
    some (os.foldl (fun best x => if best.2 ≤ x.2 then x else best) o)

/-- The chemical-linkage strength of a candidate compound against the
current target, computed over their parsed atom-count maps (helpers.py
lines 157 to 164). -/
def sclOf (target compound : Metabolite) : Option ℚ :=
  compute_chemical_linkage_strength (count_atoms compound.formula)
    (count_atoms target.formula)

/-- One `options.append((compound, scl))` entry; a `none` score is the
propagated `ZeroDivisionError`. -/
def sclEntry (target compound : Metabolite) :
    Except PyErr (Metabolite × ℚ) :=
  match sclOf target compound with
  | none => Except.error PyErr.zeroDivisionError
  | some scl => Except.ok (compound, scl)

/-- The multi-substrate branch of the `identify_exotic_cofactors` walk loop
(helpers.py lines 153 to 175): score every substrate against the current
target by chemical-linkage strength, select the highest-scoring candidate
as the next target, and add every other candidate that is not an adapted
source to the exotic cofactors. -/
def branchStep (adapted : Finset Metabolite) (target : Metabolite)
    (exotic : Finset Metabolite) (substrates : List Metabolite) :
    Except PyErr (Metabolite × Finset Metabolite) :=
  match substrates.mapM (sclEntry target) with
  | Except.error e => Except.error e
  | Except.ok options =>
    match selectPrecursor options with
    | none => Except.error PyErr.indexError
    | some (t, _) =>
      Except.ok
        (t, exotic ∪
          ((substrates.filter (fun c => decide (c ≠ t))).toFinset \ adapted))

/-- The walk context: the heterologous reaction set, the adapted source
compounds, the flux solution of the initial optimization, the zero-flux
threshold. -/
structure WalkCtx where
  heterologous : List Reaction
  adapted : Finset Metabolite
  solution : String → ℚ
  threshold : ℚ

/-- The walk state: the reaction queue (popped from the back), the seen set,
the current target compound and the exotic cofactors collected so far. -/
structure WalkState where
  queue : List Reaction
  seen : Finset Reaction
  target : Metabolite
  exotic : Finset Metabolite

/-- One iteration of the `while` loop of `identify_exotic_cofactors`
(helpers.py lines 133 to 177), processing the popped reaction `rxn` with
`rest` the remaining queue. -/
def walkStep (ctx : WalkCtx) (s : WalkState) (rxn : Reaction)
    (rest : List Reaction) : Except PyErr WalkState :=
  let seen := insert rxn s.seen
  let raw := ctx.solution rxn.id
  let flux : ℚ := if |raw| ≤ ctx.threshold then 0 else raw
  if flux = 0 then
    Except.ok
      { queue := rest
        seen := seen
        target := s.target
        exotic := s.exotic }
  else
    let substrates := pyset (if flux > 0 then rxn.reactants else rxn.products)
    let products := pyset (if flux > 0 then rxn.products else rxn.reactants)
    if s.target ∈ products then
      let products2 := (products.erase s.target).toFinset \ ctx.adapted
      let exotic := s.exotic ∪ products2
      match substrates with
      | [t] =>
        Except.ok
          { queue := rest ++ (metReactions t ctx.heterologous).filter
              (fun r => decide (r ∉ seen))
            seen := seen
            target := t
            exotic := exotic }
      | subs =>
        match branchStep ctx.adapted s.target exotic subs with
        | Except.error e => Except.error e
        | Except.ok (t, exotic2) =>
          Except.ok
            { queue := rest ++ (metReactions t ctx.heterologous).filter
                (fun r => decide (r ∉ seen))
              seen := seen
              target := t
              exotic := exotic2 }
    else
      Except.error PyErr.keyError

/-- The walk loop, popping from the back of the queue until it drains.
`fuel` only bounds the iteration count so the recursion is structural; the
result is `some` of the exotic set on normal termination and `none` when
the fuel bound was hit. -/
def walkLoop (ctx : WalkCtx) :
    ℕ → WalkState → Except PyErr (Option (Finset Metabolite))
  | 0, _ => Except.ok none
  | fuel + 1, s =>
    if hq : s.queue = [] then
      Except.ok (some s.exotic)
    else
      let rxn := s.queue.getLast hq
      let rest := s.queue.dropLast
      match walkStep ctx s rxn rest with
      | Except.error e => Except.error e
      | Except.ok s2 => walkLoop ctx fuel s2

/-- Embedding of `identify_exotic_cofactors` (helpers.py line 85).  The flux
solution found in the initial `with model` block (pathway applied, product
demand reaction as maximization objective) enters as the `solution`
parameter; the walk itself is embedded literally.  Adapters are
single-compound reactions, so `r.products.head?` is Python `r.products[0]`;
the missing-product `IndexError` on the product demand reaction is
`PyErr.indexError`. -/
def identify_exotic_cofactors (pathway : Pathway) (solution : String → ℚ)
    (threshold : ℚ) (fuel : ℕ) :
    Except PyErr (Option (Finset Metabolite)) :=
  let adapted :=
    (pathway.adapters.filterMap (fun r => r.products.head?)).toFinset
  match pathway.product.reactants.head? with
  | none => Except.error PyErr.indexError
  | some target =>
    let ctx : WalkCtx :=
      { heterologous := pathway.reactions
        adapted := adapted
        solution := solution
        threshold := threshold }
    let queue := metReactions target pathway.reactions
    walkLoop ctx fuel
      { queue := queue
        seen := ∅
        target := target
        exotic := ∅ }

/-! Concrete instances for the branch-disambiguation analysis: a linear
pathway with one heterologous reaction `R : A + B → P` whose second
substrate `B` is an adapted (native) source compound, carried into the
pathway by the adapter `AD : B_native → B`. -/

def exP : Metabolite := { id := "P", formula := "C2" }

def exA : Metabolite := { id := "A", formula := "C2" }

def exB : Metabolite := { id := "B", formula := "N" }

def exBn : Metabolite := { id := "B_native", formula := "N" }

def exR : Reaction :=
  { id := "R", reactants := [exA, exB], products := [exP] }

def exAdapter : Reaction :=
  { id := "AD", reactants := [exBn], products := [exB] }

def exDM : Reaction :=
  { id := "DM_P", reactants := [exP], products := [] }

def exPathway : Pathway :=
  { reactions := [exR], adapters := [exAdapter], exchanges := [],
    product := exDM }

def exSolution : String → ℚ := fun _ => 1

end helpers

/-! ## Design Evaluator numerics
(src/src/metabolic_ninja/evaluate.py; src/src/metabolic_ninja/worker/designer.py
lines 154 to 229; src/src/metabolic_ninja/tasks.py lines 366 to 424)

Python float values that can be NaN are embedded as `FVal`; the external
solver and the cameo objective functions enter as `Except` parameters, where
`Except.error` is the raised exception. -/

namespace evaluate

/-- A Python float result: finite rational or NaN. -/
inductive FVal
  | nan
  | fin (q : ℚ)
deriving DecidableEq

/-- `numpy.isnan`. -/
def isnan : FVal → Bool
  | FVal.nan => true
  | FVal.fin _ => false

/-- The exceptions absorbed by the evaluation layer. -/
inductive EvalErr
  | optimizationError
  | zeroDivisionError
deriving DecidableEq

/-- External inputs of `evaluate_production`: the solver outcome after
setting the production objective (a solution maps reaction ids to float
values), the `product_yield` objective applied to that solution (its error
is a `ZeroDivisionError`), and the two `total_yield` results (carbon and
mass), which may be NaN. -/
structure ProductionInputs where
  optimizeRes : Except EvalErr (String → FVal)
  pyieldRes : Except EvalErr FVal
  carbonYield : FVal
  massYield : FVal

/-- Embedding of `evaluate_production` (evaluate.py lines 94 to 134): an
`OptimizationError` of the solve resolves all four returned metrics to
absent; otherwise the production flux is stored UNCHECKED, the flux yield
absorbs only `ZeroDivisionError` (no NaN check), and the carbon and mass
yields are NaN-normalized to absent.  Returned in source order:
production_flux, production_flux_yield, production_carbon_yield,
production_mass_yield. -/
def evaluate_production (inp : ProductionInputs) (production_id : String) :
    Option FVal × Option FVal × Option FVal × Option FVal :=
  match inp.optimizeRes with
  | Except.error _ => (none, none, none, none)
  | Except.ok solution =>
    let production_flux := solution production_id
    let production_flux_yield :=
      match inp.pyieldRes with
      | Except.error _ => none
      | Except.ok v => some v
    let production_carbon_yield :=
      if isnan inp.carbonYield then none else some inp.carbonYield
    let production_mass_yield :=
      if isnan inp.massYield then none else some inp.massYield
    (some production_flux, production_flux_yield,
      production_carbon_yield, production_mass_yield)

/-- External inputs of `evaluate_biomass_coupled_production`: the pfba
solve with the biomass objective, and the two coupled-yield objectives
(their errors are `ZeroDivisionError`). -/
structure BiomassCoupledInputs where
  pfbaRes : Except EvalErr (String → FVal)
  bpcyRes : Except EvalErr FVal
  bpcmyRes : Except EvalErr FVal

/-- Embedding of `evaluate_biomass_coupled_production` (evaluate.py lines
176 to 203): an `OptimizationError` of the solve resolves all three
results to absent; a `ZeroDivisionError` in either yield resolves both
yields to absent while the growth rate stays populated; none of the three
results is NaN-normalized.  Returned in source order: growth, bpc_yield,
bpcm_yield. -/
def evaluate_biomass_coupled_production (inp : BiomassCoupledInputs)
    (biomass_id : String) : Option FVal × Option FVal × Option FVal :=
  match inp.pfbaRes with
  | Except.error _ => (none, none, none)
  | Except.ok solution =>
    let growth := solution biomass_id
    match inp.bpcyRes, inp.bpcmyRes with
    | Except.ok bpc, Except.ok bpcm => (some growth, some bpc, some bpcm)
    | _, _ => (some growth, none, none)

/-- External inputs of the per-design `try` block of `evaluate_opt_gene`. -/
structure OptGeneInputs where
  optimizeRes : Except EvalErr (String → FVal)
  pyieldRes : Except EvalErr FVal
  bpcyRes : Except EvalErr FVal

/-- The four-metric core of `evaluate_opt_gene` (designer.py lines 166 to
188) for one design: one `try` block computes the biomass-objective
solution, the product yield, the growth-coupled minimal yield, the
production flux and the growth rate; an `OptimizationError` or
`ZeroDivisionError` anywhere in it resolves ALL FOUR metrics to absent
together, and in the `else` branch each NaN result is individually
normalized to absent.  Returned in source order: p_yield, bpc_yield,
target_flux, biomass. -/
def opt_gene_metrics (inp : OptGeneInputs) (product_id biomass_id : String) :
    Option FVal × Option FVal × Option FVal × Option FVal :=
  match inp.optimizeRes, inp.pyieldRes, inp.bpcyRes with
  | Except.ok solution, Except.ok p_yield0, Except.ok bpc_yield0 =>
    let target_flux := solution product_id
    let biomass := solution biomass_id
    (if isnan p_yield0 then none else some p_yield0,
     if isnan bpc_yield0 then none else some bpc_yield0,
     if isnan target_flux then none else some target_flux,
     if isnan biomass then none else some biomass)
  | _, _, _ => (none, none, none, none)

/-- The four numeric outcome fields of one result row. -/
structure RowMetrics where
  fitness : Option FVal
  prodYield : Option FVal
  product : Option FVal
  biomass : Option FVal
deriving DecidableEq

/-- Concrete opt-gene inputs whose solve raises `OptimizationError`. -/
def exOGI : OptGeneInputs :=
  { optimizeRes := Except.error EvalErr.optimizationError
    pyieldRes := Except.ok (FVal.fin 1)
    bpcyRes := Except.ok (FVal.fin 1) }

/-- Concrete production inputs whose solve raises `OptimizationError`. -/
def exProdFail : ProductionInputs :=
  { optimizeRes := Except.error EvalErr.optimizationError
    pyieldRes := Except.ok (FVal.fin 0)
    carbonYield := FVal.fin 0
    massYield := FVal.fin 0 }

/-- Concrete biomass-coupled inputs that all succeed. -/
def exBioOk : BiomassCoupledInputs :=
  { pfbaRes := Except.ok (fun _ => FVal.fin 1)
    bpcyRes := Except.ok (FVal.fin 2)
    bpcmyRes := Except.ok (FVal.fin 3) }

/-- The outcome fields of one cofactor-swap result row
(tasks.py lines 406 to 423 / designer.py lines 300 to 326): `product` and
`yield` come from one `evaluate_production` call, `biomass` and `fitness`
from one `evaluate_biomass_coupled_production` call, and the two calls
absorb their failures independently of each other. -/
def evaluate_cofactor_swap_metrics (prodInp : ProductionInputs)
    (bcInp : BiomassCoupledInputs) (production_id biomass_id : String) :
    RowMetrics :=
  let p := evaluate_production prodInp production_id
  let b := evaluate_biomass_coupled_production bcInp biomass_id
  { fitness := b.2.1
    prodYield := p.2.2.1
    product := p.1
    biomass := b.1 }

end evaluate

/-! ## Strain-Design Optimizers and the host model
(src/src/metabolic_ninja/worker/designer.py)

The host model state records exactly what the optimizers can modify:
reaction bounds, the objective, and the added pathway reactions.  A cobra
`with model:` block checkpoints the state on entry and restores it on exit,
so in the embedding the state after a `with` block is the state before it;
the external optimizer runs enter as function parameters. -/

namespace designer

/-- One reaction entry of the host model: id and flux bounds. -/
structure RxnEntry where
  id : String
  lower_bound : ℚ
  upper_bound : ℚ
deriving DecidableEq

/-- The job-scoped host model state: reactions with bounds, the objective,
plus the two job annotations `model.biomass` and `model.carbon_source`. -/
structure ModelState where
  reactions : List RxnEntry
  objective : String
  biomass : String
  carbon_source : String
deriving DecidableEq

/-- A pathway as applied to the host model: `pathway.apply(model)` adds its
reactions; `product_id` is the product demand reaction id. -/
structure DPathway where
  rxns : List RxnEntry
  product_id : String
deriving DecidableEq

/-- `pathway.apply(model)`: add the pathway reactions to the model. -/
def apply_pathway (p : DPathway) (m : ModelState) : ModelState :=
  { m with reactions := m.reactions ++ p.rxns }

/-- `model.reactions.get_by_id(rid).lower_bound = v`. -/
def set_lower_bound (m : ModelState) (rid : String) (v : ℚ) : ModelState :=
  let updated := m.reactions.map
    (fun r => if r.id = rid then { r with lower_bound := v } else r)
  { m with reactions := updated }

/-- Embedding of `differential_fva_optimization` (designer.py lines 36 to
72).  The whole body runs inside `with model:`, so the entering state is
restored on exit; the `DifferentialFVA` construction and run is the
external parameter `run` (`none` is the `ZeroDivisionError` absorbed at
line 67).  Returns the designs with the model state after the call. -/
def differential_fva_optimization {δ : Type} (pathway : DPathway)
    (model : ModelState) (run : ModelState → Option δ) :
    Option δ × ModelState :=
  let designs := run (apply_pathway pathway model)
  (designs, model)

/-- Embedding of `opt_gene` (designer.py lines 139 to 151): the pathway
application and the OptGene run both happen inside `with model:`. -/
def opt_gene {δ : Type} (pathway : DPathway) (model : ModelState)
    (run : ModelState → δ) : δ × ModelState :=
  let designs := run (apply_pathway pathway model)
  (designs, model)

/-- Embedding of `cofactor_swap_optimization` (designer.py lines 232 to
247): the growth solve happens inside `with model:`, but the biomass
lower-bound fix at 5% of maximum growth (line 236), the pathway
application (line 237) and the objective change (line 238) happen OUTSIDE
any model context; only the `CofactorSwapOptimization` run itself (lines
240 to 246) is scoped.  Returns the designs with the model state after the
call. -/
def cofactor_swap_optimization {δ : Type} (pathway : DPathway)
    (model : ModelState) (slim_optimize : ModelState → ℚ)
    (run : ModelState → δ) : δ × ModelState :=
  let growth := slim_optimize { model with objective := model.biomass }
  let m1 := set_lower_bound model model.biomass (0.05 * growth)
  let m2 := apply_pathway pathway m1
  let m3 := { m2 with objective := pathway.product_id }
  let designs := run m3
  (designs, m3)

/-- A concrete biomass reaction entry for the frame analysis. -/
def exBiomassRxn : RxnEntry :=
  { id := "BIOMASS", lower_bound := 0, upper_bound := 10 }

/-- A concrete glucose exchange reaction entry. -/
def exGlcRxn : RxnEntry :=
  { id := "EX_glc__D_e", lower_bound := -10, upper_bound := 0 }

/-- A concrete host model for the frame analysis. -/
def exModel : ModelState :=
  { reactions := [exBiomassRxn, exGlcRxn]
    objective := "BIOMASS"
    biomass := "BIOMASS"
    carbon_source := "EX_glc__D_e" }

/-- A concrete pathway for the frame analysis. -/
def exDPathway : DPathway :=
  { rxns := [{ id := "HR1", lower_bound := 0, upper_bound := 1000 }]
    product_id := "DM_product" }

end designer

/-! ## Result aggregation
(src/src/metabolic_ninja/tasks.py lines 533 to 593 and
src/src/metabolic_ninja/worker/tasks.py lines 179 to 208) -/

namespace tasks

/-- A knockout target object (reaction or gene): carries its id. -/
structure Target where
  id : String
deriving DecidableEq

/-- One result row as produced by the evaluators, before aggregation: the
reference fields hold full objects.  A Python row lacking a key (for
example `knockouts` in cofactor-swap rows) is represented by the empty
list, which is exactly what `row.get(key, [])` yields at every use
below. -/
structure RowIn where
  knockouts : List Target
  manipulations : List String
  heterologous_reactions : List helpers.Reaction
  synthetic_reactions : List helpers.Reaction
  exotic_cofactors : List helpers.Metabolite
  method : String
deriving DecidableEq

/-- A result row after aggregation: object references replaced by ids. -/
structure RowOut where
  knockouts : List String
  manipulations : List String
  heterologous_reactions : List String
  synthetic_reactions : List String
  exotic_cofactors : List String
  method : String
deriving DecidableEq

/-- The in-row reference replacement shared by `concatenate` and
`_collect_results`: every reaction, metabolite and knockout reference
becomes its bare id; manipulations are kept as they are. -/
def rowToOut (row : RowIn) : RowOut :=
  { knockouts := row.knockouts.map Target.id
    manipulations := row.manipulations
    heterologous_reactions := row.heterologous_reactions.map helpers.Reaction.id
    synthetic_reactions := row.synthetic_reactions.map helpers.Reaction.id
    exotic_cofactors := row.exotic_cofactors.map helpers.Metabolite.id
    method := row.method }

/-- `cobra.io.dict.reaction_to_dict`: an external serializer; its output is
embedded by the reaction value itself (the aggregation properties depend
only on the keys, and the serializer is injective on them). -/
def reaction_to_dict (r : helpers.Reaction) : helpers.Reaction := r

/-- `cobra.io.dict.metabolite_to_dict`: external serializer, embedded by
the metabolite value itself. -/
def metabolite_to_dict (m : helpers.Metabolite) : helpers.Metabolite := m

/-- One row's contribution to the two lookup tables in the statement order
of `concatenate` (tasks.py lines 542 to 566): heterologous reactions then
synthetic reactions into `reactions`; exotic cofactors then the metabolites
of the heterologous reactions into `metabolites`. -/
def internRowTables (row : RowIn)
    (reactions : List (String × helpers.Reaction))
    (metabolites : List (String × helpers.Metabolite)) :
    List (String × helpers.Reaction) × List (String × helpers.Metabolite) :=
  let reactions1 := row.heterologous_reactions.foldl
    (fun d r => dinsert d r.id (reaction_to_dict r)) reactions
  let reactions2 := row.synthetic_reactions.foldl
    (fun d r => dinsert d r.id (reaction_to_dict r)) reactions1
  let metabolites1 := row.exotic_cofactors.foldl
    (fun d m => dinsert d m.id (metabolite_to_dict m)) metabolites
  let metabolites2 :=
    ((row.heterologous_reactions.map helpers.Reaction.mets).flatten).foldl
      (fun d m => dinsert d m.id (metabolite_to_dict m)) metabolites1
  (reactions2, metabolites2)

/-- The aggregation state of `concatenate`: the two lookup tables and the
three method buckets. -/
structure CState where
  reactions : List (String × helpers.Reaction)
  metabolites : List (String × helpers.Metabolite)
  diff_fva : List RowOut
  cofactor_swap : List RowOut
  opt_gene : List RowOut
deriving DecidableEq

/-- The empty aggregation state. -/
def initCState : CState :=
  { reactions := []
    metabolites := []
    diff_fva := []
    cofactor_swap := []
    opt_gene := [] }

/-- Processing of one flattened row in `concatenate` (tasks.py lines 541
to 586): intern the row's references into the tables, replace in-row
references with ids, and append the row to the bucket of its method tag;
an unknown method tag raises `ValueError("Unknown design method.")`. -/
def concatenateRow (s : CState) (row : RowIn) : Except String CState :=
  let tables := internRowTables row s.reactions s.metabolites
  let out := rowToOut row
  if row.method = "PathwayPredictor+DifferentialFVA" then
    Except.ok
      { s with
        reactions := tables.1
        metabolites := tables.2
        diff_fva := s.diff_fva ++ [out] }
  else if row.method = "PathwayPredictor+CofactorSwap" then
    Except.ok
      { s with
        reactions := tables.1
        metabolites := tables.2
        cofactor_swap := s.cofactor_swap ++ [out] }
  else if row.method = "PathwayPredictor+OptGene" then
    Except.ok
      { s with
        reactions := tables.1
        metabolites := tables.2
        opt_gene := s.opt_gene ++ [out] }
  else
    Except.error "Unknown design method."

/-- The row loop of `concatenate`, aborting at the first unknown method
tag. -/
def concatenateSt : List RowIn → CState → Except String CState
  | [], s => Except.ok s
  | row :: rest, s =>
    match concatenateRow s row with
    | Except.error e => Except.error e
    | Except.ok s2 => concatenateSt rest s2

/-- A value of the JSON result payload object. -/
inductive PValue
  | rows (l : List RowOut)
  | rxnTable (d : List (String × helpers.Reaction))
  | metTable (d : List (String × helpers.Metabolite))
  | str (s : String)
deriving DecidableEq

/-- Embedding of `concatenate` (tasks.py lines 533 to 593): flatten the
per-pathway, per-method row lists, process every row, and return the
payload dict in source key order. -/
def concatenate (results : List (List RowIn)) :
    Except String (List (String × PValue)) :=
  match concatenateSt results.flatten initCState with
  | Except.error e => Except.error e
  | Except.ok s =>
    Except.ok [("diff_fva", PValue.rows s.diff_fva),
      ("cofactor_swap", PValue.rows s.cofactor_swap),
      ("opt_gene", PValue.rows s.opt_gene),
      ("reactions", PValue.rxnTable s.reactions),
      ("metabolites", PValue.metTable s.metabolites)]

/-- One row's interning in `_collect_results` (worker/tasks.py lines 181
to 190): each heterologous reaction together with its metabolites, then
the synthetic reactions, then the exotic cofactors. -/
def collectRow (row : RowIn)
    (reactions : List (String × helpers.Reaction))
    (metabolites : List (String × helpers.Metabolite)) :
    List (String × helpers.Reaction) × List (String × helpers.Metabolite) :=
  let step1 := row.heterologous_reactions.foldl
    (fun (p : List (String × helpers.Reaction) ×
        List (String × helpers.Metabolite)) r =>
      (dinsert p.1 r.id (reaction_to_dict r),
        (helpers.Reaction.mets r).foldl
          (fun d m => dinsert d m.id (metabolite_to_dict m)) p.2))
    (reactions, metabolites)
  let reactions2 := row.synthetic_reactions.foldl
    (fun d r => dinsert d r.id (reaction_to_dict r)) step1.1
  let metabolites2 := row.exotic_cofactors.foldl
    (fun d m => dinsert d m.id (metabolite_to_dict m)) step1.2
  (reactions2, metabolites2)

/-- Embedding of `_collect_results` (worker/tasks.py lines 179 to 208):
for each row intern its references, replace in-row references by bare ids,
and append the converted row to the container. -/
def collect_results (results : List RowIn)
    (reactions : List (String × helpers.Reaction))
    (metabolites : List (String × helpers.Metabolite))
    (container : List RowOut) :
    List (String × helpers.Reaction) × List (String × helpers.Metabolite) ×
      List RowOut :=
  results.foldl (fun acc row =>
    let t := collectRow row acc.1 acc.2.1
    (t.1, t.2, acc.2.2 ++ [rowToOut row]))
    (reactions, metabolites, container)

/-- The reaction ids a row makes the aggregation intern: its heterologous
and synthetic reactions. -/
def rowReactionIds (row : RowIn) : List String :=
  (row.heterologous_reactions ++ row.synthetic_reactions).map
    helpers.Reaction.id

/-- The metabolite ids a row makes the aggregation intern: its exotic
cofactors and the metabolites of its heterologous reactions. -/
def rowMetaboliteIds (row : RowIn) : List String :=
  row.exotic_cofactors.map helpers.Metabolite.id ++
    ((row.heterologous_reactions.map helpers.Reaction.mets).flatten).map
      helpers.Metabolite.id

/-- A concrete differential-FVA row referencing the example reaction. -/
def exRowDF : RowIn :=
  { knockouts := []
    manipulations := []
    heterologous_reactions := [helpers.exR]
    synthetic_reactions := []
    exotic_cofactors := []
    method := "PathwayPredictor+DifferentialFVA" }

/-- A concrete row with a method tag outside the enumerated set. -/
def exRowBad : RowIn :=
  { knockouts := []
    manipulations := []
    heterologous_reactions := []
    synthetic_reactions := []
    exotic_cofactors := []
    method := "nonsense" }

/-- The aggregation state after processing `[[exRowDF]]`. -/
def exAggState : CState :=
  { reactions := [("R", helpers.exR)]
    metabolites := [("A", helpers.exA), ("B", helpers.exB),
      ("P", helpers.exP)]
    diff_fva := [rowToOut exRowDF]
    cofactor_swap := []
    opt_gene := [] }

end tasks

/-! ## Job Orchestrator
(src/src/metabolic_ninja/worker/tasks.py lines 33 to 113;
src/src/worker/decorators.py lines 33 to 83;
src/src/metabolic_ninja/tasks.py lines 79 to 86, 88 to 163, 596 to 604) -/

namespace worker

/-- The celery job states. -/
inductive Status
  | PENDING
  | STARTED
  | SUCCESS
  | FAILURE
  | REVOKED
deriving DecidableEq

/-- The persisted design-job record: the status column plus the nullable
result column (the API creates the record with status PENDING and a null
result, resources.py line 82). -/
structure JobRecord where
  status : Status
  result : Option (List (String × tasks.PValue))
deriving DecidableEq

/-- The outcome of one failure-isolated `@task` child process
(worker/decorators.py lines 33 to 83): the piped return value, or
`TaskFailedException` when the child exited nonzero. -/
inductive StageResult (α : Type)
  | ok (a : α)
  | failed

/-- `job.save(**kwargs)` (worker/data.py lines 92 to 99): set exactly the
given columns of the record; a `none` result argument means the result
column was not in the kwargs and keeps its value. -/
def save (r : JobRecord) (status : Status)
    (result : Option (List (String × tasks.PValue))) : JobRecord :=
  { status := status
    result := (match result with
      | none => r.result
      | some p => some p) }

/-- The stage outcomes of one run of the worker `design` workflow: product
resolution, pathway prediction, and the per-pathway differential-FVA and
cofactor-swap tasks (the OptGene block is commented out in source). -/
structure DesignEnv where
  find_product : StageResult Unit
  find_pathways : StageResult (List helpers.Pathway)
  diff_fva : helpers.Pathway → StageResult (List tasks.RowIn)
  cofactor_swap : helpers.Pathway → StageResult (List tasks.RowIn)

/-- The failure-isolated tasks invoked during a run, in invocation order. -/
inductive TaskCall
  | findProductTask
  | findPathwaysTask
  | diffFvaTask (index : ℕ)
  | cofactorSwapTask (index : ℕ)
deriving DecidableEq

/-- The per-pathway loop of the worker `design` (worker/tasks.py lines 57
to 96): differential FVA then cofactor swap per pathway, collecting rows
into the shared tables and buckets; the first `TaskFailedException` aborts
the loop (`none`), with the remaining tasks never invoked. -/
def designLoop (env : DesignEnv) :
    List helpers.Pathway → ℕ → tasks.CState →
    Option tasks.CState × List TaskCall
  | [], _, s => (some s, [])
  | p :: rest, i, s =>
    match env.diff_fva p with
    | StageResult.failed => (none, [TaskCall.diffFvaTask i])
    | StageResult.ok rows1 =>
      let t1 := tasks.collect_results rows1 s.reactions s.metabolites
        s.diff_fva
      match env.cofactor_swap p with
      | StageResult.failed =>
        (none, [TaskCall.diffFvaTask i, TaskCall.cofactorSwapTask i])
      | StageResult.ok rows2 =>
        let t2 := tasks.collect_results rows2 t1.1 t1.2.1 s.cofactor_swap
        let s2 : tasks.CState :=
          { reactions := t2.1
            metabolites := t2.2.1
            diff_fva := t1.2.2
            cofactor_swap := t2.2.2
            opt_gene := s.opt_gene }
        let r := designLoop env rest (i + 1) s2
        (r.1, TaskCall.diffFvaTask i :: TaskCall.cofactorSwapTask i :: r.2)

/-- Embedding of the worker `design` workflow (worker/tasks.py lines 33 to
113) acting on the job record: save STARTED, run the stages, and on success
save SUCCESS together with the payload (five aggregate keys plus the
`target` key holding the first pathway's product id, or the empty string
without pathways).  A `TaskFailedException` from any stage only aborts the
workflow: the handler at lines 102 to 108 logs and acknowledges the message
WITHOUT any further record update.  Returns the final record and the tasks
invoked. -/
def design (env : DesignEnv) (record : JobRecord) :
    JobRecord × List TaskCall :=
  let r1 := save record Status.STARTED none
  match env.find_product with
  | StageResult.failed => (r1, [TaskCall.findProductTask])
  | StageResult.ok _ =>
    match env.find_pathways with
    | StageResult.failed =>
      (r1, [TaskCall.findProductTask, TaskCall.findPathwaysTask])
    | StageResult.ok pathways =>
      let target := match pathways with
        | [] => ""
        | p :: _ => p.product.id
      match designLoop env pathways 1 tasks.initCState with
      | (none, calls) =>
        (r1, TaskCall.findProductTask :: TaskCall.findPathwaysTask :: calls)
      | (some s, calls) =>
        let payload := [("diff_fva", tasks.PValue.rows s.diff_fva),
          ("opt_gene", tasks.PValue.rows s.opt_gene),
          ("cofactor_swap", tasks.PValue.rows s.cofactor_swap),
          ("reactions", tasks.PValue.rxnTable s.reactions),
          ("metabolites", tasks.PValue.metTable s.metabolites),
          ("target", tasks.PValue.str target)]
        (save r1 Status.SUCCESS (some payload),
          TaskCall.findProductTask :: TaskCall.findPathwaysTask :: calls)

/-- The stage outcomes of the celery `predict` workflow chain
(metabolic_ninja/tasks.py lines 148 to 163): product resolution, pathway
prediction and the grouped optimization; `concatenate` and `persist` are
embedded, `fail_workflow` is the `.on_error` handler of the chain. -/
structure CeleryEnv where
  find_product : StageResult Unit
  find_pathways : StageResult Unit
  optimize : StageResult (List (List tasks.RowIn))

/-- Embedding of `fail_workflow` (tasks.py lines 79 to 86): set the status
column to FAILURE; the result column is untouched. -/
def fail_workflow (r : JobRecord) : JobRecord :=
  { r with status := Status.FAILURE }

/-- Embedding of `persist` (tasks.py lines 596 to 604): set status SUCCESS
and store the payload. -/
def persist (r : JobRecord) (payload : List (String × tasks.PValue)) :
    JobRecord :=
  { r with status := Status.SUCCESS, result := some payload }

/-- The record trace of one celery workflow run (tasks.py lines 88 to
163): the record at submission, after the `predict` task set STARTED, and
after the terminal update — `persist` when the whole chain through
`concatenate` succeeded, `fail_workflow` when any stage raised. -/
def workflow_trace (env : CeleryEnv) (record : JobRecord) :
    List JobRecord :=
  let r1 := { record with status := Status.STARTED }
  let final :=
    match env.find_product, env.find_pathways, env.optimize with
    | StageResult.ok _, StageResult.ok _, StageResult.ok results =>
      match tasks.concatenate results with
      | Except.ok payload => persist r1 payload
      | Except.error _ => fail_workflow r1
    | _, _, _ => fail_workflow r1
  [record, r1, final]

/-- Rank of a status in the monotonic transition order
PENDING, then STARTED, then terminal. -/
def statusRank : Status → ℕ
  | Status.PENDING => 0
  | Status.STARTED => 1
  | Status.SUCCESS => 2
  | Status.FAILURE => 2
  | Status.REVOKED => 2

/-- A concrete worker environment whose stages all succeed, with one
pathway and empty per-task row lists. -/
def exDesignEnv : DesignEnv :=
  { find_product := StageResult.ok ()
    find_pathways := StageResult.ok [helpers.exPathway]
    diff_fva := fun _ => StageResult.ok []
    cofactor_swap := fun _ => StageResult.ok [] }

/-- The payload the worker persists for `exDesignEnv`: the five aggregate
keys plus the `target` key. -/
def exPayload6 : List (String × tasks.PValue) :=
  [("diff_fva", tasks.PValue.rows []),
    ("opt_gene", tasks.PValue.rows []),
    ("cofactor_swap", tasks.PValue.rows []),
    ("reactions", tasks.PValue.rxnTable []),
    ("metabolites", tasks.PValue.metTable []),
    ("target", tasks.PValue.str "DM_P")]

/-- A concrete celery environment whose product resolution fails. -/
def exFailEnv : CeleryEnv :=
  { find_product := StageResult.failed
    find_pathways := StageResult.ok ()
    optimize := StageResult.ok [] }

/-- A concrete worker environment where the first pathway's cofactor-swap
stage crashes, with a second pathway pending. -/
def exFailDesignEnv : DesignEnv :=
  { find_product := StageResult.ok ()
    find_pathways := StageResult.ok [helpers.exPathway, helpers.exPathway]
    diff_fva := fun _ => StageResult.ok []
    cofactor_swap := fun _ => StageResult.failed }

end worker

/-! # Supporting lemmas -/

theorem dkeys_dinsert_mem {α : Type} (d : List (String × α)) (k : String)
    (v : α) (x : String) :
    x ∈ dkeys (dinsert d k v) ↔ x ∈ dkeys d ∨ x = k := by
  induction d with
  | nil => simp [dinsert, dkeys]
  | cons p ps ih =>
    by_cases hpk : p.1 = k
    · simp only [dinsert, hpk, if_true]
      show x ∈ dkeys ((k, v) :: ps) ↔ x ∈ dkeys (p :: ps) ∨ x = k
      simp only [dkeys, List.map_cons, List.mem_cons, hpk]
      tauto
    · simp only [dinsert, hpk, if_false, dkeys, List.map_cons, List.mem_cons]
      rw [show List.map Prod.fst (dinsert ps k v) = dkeys (dinsert ps k v)
        from rfl, ih]
      simp [dkeys]
      tauto

theorem dkeys_dinsert_nodup {α : Type} (d : List (String × α)) (k : String)
    (v : α) (h : (dkeys d).Nodup) : (dkeys (dinsert d k v)).Nodup := by
  induction d with
  | nil => simp [dinsert, dkeys]
  | cons p ps ih =>
    simp only [dkeys, List.map_cons, List.nodup_cons] at h
    by_cases hpk : p.1 = k
    · simp only [dinsert, hpk, if_true, dkeys, List.map_cons, List.nodup_cons]
      exact ⟨hpk ▸ h.1, h.2⟩
    · simp only [dinsert, hpk, if_false, dkeys, List.map_cons, List.nodup_cons]
      refine ⟨?_, ih h.2⟩
      intro hmem
      rw [show List.map Prod.fst (dinsert ps k v) = dkeys (dinsert ps k v)
        from rfl, dkeys_dinsert_mem] at hmem
      rcases hmem with hmem | hmem
      · exact h.1 hmem
      · exact hpk hmem

theorem dlookup_dinsert_self {α : Type} (d : List (String × α)) (k : String)
    (v : α) : dlookup (dinsert d k v) k = some v := by
  induction d with
  | nil => simp [dinsert, dlookup]
  | cons p ps ih =>
    by_cases hpk : p.1 = k
    · simp [dinsert, dlookup, hpk]
    · simp [dinsert, dlookup, hpk, List.find?] at ih ⊢
      exact ih

theorem dlookup_dinsert_ne {α : Type} (d : List (String × α)) (k k' : String)
    (v : α) (h : k' ≠ k) : dlookup (dinsert d k v) k' = dlookup d k' := by
  induction d with
  | nil =>
    simp only [dinsert, dlookup, List.find?]
    rw [decide_eq_false (fun hkk => h hkk.symm)]
  | cons p ps ih =>
    by_cases hpk : p.1 = k
    · simp only [dinsert, hpk, if_true, dlookup, List.find?]
      rw [decide_eq_false (fun hkk => h hkk.symm)]
    · simp only [dinsert, hpk, if_false, dlookup, List.find?] at ih ⊢
      by_cases hpk' : p.1 = k' <;> simp [hpk', ih]

/-- Re-inserting an already present binding is a no-op (idempotent interning,
never an error). -/
theorem dinsert_idempotent {α : Type} (d : List (String × α)) (k : String)
    (v : α) (h : dlookup d k = some v) : dinsert d k v = d := by
  induction d with
  | nil => simp [dlookup, List.find?] at h
  | cons p ps ih =>
    by_cases hpk : p.1 = k
    · simp only [dlookup, List.find?] at h
      rw [decide_eq_true hpk] at h
      simp only [Option.map_some', Option.some_inj] at h
      have hp : p = (k, v) := by
        rw [Prod.ext_iff]
        exact ⟨hpk, h⟩
      simp [dinsert, hpk, hp]
    · simp only [dlookup, List.find?] at h
      rw [decide_eq_false hpk] at h
      simp only [dinsert, hpk, if_false]
      rw [ih h]

/-- Looking a key up in a dict built by repeated insertion finds the value of
the LAST binding for that key in the input: later bindings overwrite earlier
ones, as in a Python dict comprehension. -/
theorem dlookup_foldl_dinsert {α : Type} (l : List (String × α))
    (d : List (String × α)) (k : String) :
    dlookup (l.foldl (fun d p => dinsert d p.1 p.2) d) k =
      ((l.reverse.find? (fun p => p.1 = k)).map Prod.snd).orElse
        (fun _ => dlookup d k) := by
  induction l generalizing d with
  | nil => simp [Option.orElse]
  | cons p ps ih =>
    simp only [List.foldl_cons, List.reverse_cons, List.find?_append]
    rw [ih]
    cases hfind : ps.reverse.find? (fun p => p.1 = k) with
    | some q => simp [Option.orElse]
    | none =>
      simp only [Option.map_none', Option.orElse, Option.none_orElse]
      by_cases hpk : p.1 = k
      · subst hpk
        rw [dlookup_dinsert_self]
        simp [List.find?]
      · rw [dlookup_dinsert_ne _ _ _ _ (fun hkk => hpk hkk.symm)]
        simp only [List.find?]
        rw [decide_eq_false hpk]
        rfl

theorem dkeys_dictOfList_nodup {α : Type} (l : List (String × α)) :
    (dkeys (dictOfList l)).Nodup := by
  have main : ∀ (l : List (String × α)) (d : List (String × α)),
      (dkeys d).Nodup →
      (dkeys (l.foldl (fun d p => dinsert d p.1 p.2) d)).Nodup := by
    intro l
    induction l with
    | nil => intro d hd; exact hd
    | cons p ps ih =>
      intro d hd
      exact ih _ (dkeys_dinsert_nodup d p.1 p.2 hd)
  exact main l [] (by simp [dkeys])

namespace helpers

theorem not_digit_of_upper {c : Char} (h : c.isUpper = true) :
    c.isDigit = false := by
  simp only [Char.isUpper, Bool.and_eq_true, decide_eq_true_eq] at h
  have h65 : (65 : ℕ) ≤ c.val.toNat := h.1
  rw [← Bool.not_eq_true]
  intro hd
  simp only [Char.isDigit, Bool.and_eq_true, decide_eq_true_eq] at hd
  have h57 : c.val.toNat ≤ 57 := hd.2
  omega

theorem not_lower_of_upper {c : Char} (h : c.isUpper = true) :
    c.isLower = false := by
  simp only [Char.isUpper, Bool.and_eq_true, decide_eq_true_eq] at h
  have h90 : c.val.toNat ≤ 90 := h.2
  rw [← Bool.not_eq_true]
  intro hd
  simp only [Char.isLower, Bool.and_eq_true, decide_eq_true_eq] at hd
  have h97 : (97 : ℕ) ≤ c.val.toNat := hd.1
  omega

theorem not_lower_of_digit {c : Char} (h : c.isDigit = true) :
    c.isLower = false := by
  simp only [Char.isDigit, Bool.and_eq_true, decide_eq_true_eq] at h
  have h57 : c.val.toNat ≤ 57 := h.2
  rw [← Bool.not_eq_true]
  intro hd
  simp only [Char.isLower, Bool.and_eq_true, decide_eq_true_eq] at hd
  have h97 : (97 : ℕ) ≤ c.val.toNat := hd.1
  omega

theorem takeDigits_snd_length (l : List Char) :
    (takeDigits l).2.length ≤ l.length := by
  induction l with
  | nil => simp [takeDigits]
  | cons c cs ih =>
    by_cases h : c.isDigit
    · simp only [takeDigits, h, if_true, List.length_cons]
      exact le_trans ih (Nat.le_succ _)
    · simp [takeDigits, h]

/-- The maximal digit run taken from `l ++ r` is exactly `l` when `l` is all
digits and `r` does not start with one. -/
theorem takeDigits_append (l r : List Char)
    (hl : ∀ c ∈ l, c.isDigit = true)
    (hr : ∀ c, r.head? = some c → c.isDigit = false) :
    takeDigits (l ++ r) = (l, r) := by
  induction l with
  | nil =>
    simp only [List.nil_append]
    cases r with
    | nil => rfl
    | cons c cs =>
      have := hr c rfl
      simp [takeDigits, this]
  | cons c cs ih =>
    have hc := hl c (List.mem_cons_self c cs)
    simp only [List.cons_append, takeDigits, hc, if_true, List.append_eq]
    rw [ih (fun x hx => hl x (List.mem_cons_of_mem _ hx))]

theorem renderToks_cons (t : String × List Char)
    (ts : List (String × List Char)) :
    renderToks (t :: ts) = (t.1.data ++ t.2) ++ renderToks ts := by
  simp [renderToks, renderTok]

/-- The symbol of a valid token starts with an uppercase letter. -/
theorem validTok_data_shape (t : String × List Char)
    (h : validTok t = true) :
    (∃ u, t.1.data = [u] ∧ u.isUpper = true) ∨
      (∃ u l, t.1.data = [u, l] ∧ u.isUpper = true ∧ l.isLower = true) := by
  simp only [validTok, Bool.and_eq_true] at h
  cases hsd : t.1.data with
  | nil => rw [hsd] at h; simp at h
  | cons u rest =>
    cases rest with
    | nil =>
      rw [hsd] at h
      left
      exact ⟨u, rfl, by simpa using h.1⟩
    | cons l rest2 =>
      cases rest2 with
      | nil =>
        rw [hsd] at h
        right
        refine ⟨u, l, rfl, ?_, ?_⟩
        · have := h.1
          simp only [Bool.and_eq_true] at this
          exact this.1
        · have := h.1
          simp only [Bool.and_eq_true] at this
          exact this.2
      | cons x xs => rw [hsd] at h; simp at h

theorem renderToks_head_upper (ts : List (String × List Char))
    (h : ∀ t ∈ ts, validTok t = true) (c : Char)
    (hc : (renderToks ts).head? = some c) : c.isUpper = true := by
  cases ts with
  | nil => simp [renderToks] at hc
  | cons t ts =>
    have hvt := h t (List.mem_cons_self t ts)
    rw [renderToks_cons] at hc
    rcases validTok_data_shape t hvt with ⟨u, hsd, hu⟩ | ⟨u, l, hsd, hu, _⟩ <;>
      rw [hsd] at hc <;>
      simp only [List.cons_append, List.head?_cons, Option.some_inj] at hc <;>
      exact hc ▸ hu

theorem renderToks_eq_nil (ts : List (String × List Char))
    (h : ∀ t ∈ ts, validTok t = true) (hnil : renderToks ts = []) :
    ts = [] := by
  cases ts with
  | nil => rfl
  | cons t ts =>
    exfalso
    have hvt := h t (List.mem_cons_self t ts)
    rw [renderToks_cons] at hnil
    rcases validTok_data_shape t hvt with ⟨u, hsd, _⟩ | ⟨u, l, hsd, _, _⟩ <;>
      rw [hsd] at hnil <;> simp at hnil

/-- Scanning the rendering of a valid token list recovers exactly the
tokens; fuel of at least the length of the rendered string suffices. -/
theorem findAtomsF_renderToks (fuel : ℕ) :
    ∀ ts : List (String × List Char), (∀ t ∈ ts, validTok t = true) →
    (renderToks ts).length ≤ fuel →
    findAtomsF fuel (renderToks ts) = ts := by
  induction fuel with
  | zero =>
    intro ts hv hlen
    have h0 : renderToks ts = [] :=
      List.length_eq_zero.mp (Nat.le_zero.mp hlen)
    rw [h0, renderToks_eq_nil ts hv h0]
    rfl
  | succ fuel ih =>
    intro ts hv hlen
    cases ts with
    | nil => rfl
    | cons t ts =>
      obtain ⟨sym, cnt⟩ := t
      have hvt := hv _ (List.mem_cons_self _ ts)
      have hvts : ∀ x ∈ ts, validTok x = true :=
        fun x hx => hv x (List.mem_cons_of_mem _ hx)
      have hdig : ∀ c ∈ cnt, c.isDigit = true := by
        have h2 := ((Bool.and_eq_true _ _).mp hvt).2
        simpa [List.all_eq_true] using h2
      have hnd : ∀ c, (renderToks ts).head? = some c → c.isDigit = false :=
        fun c hc => not_digit_of_upper (renderToks_head_upper ts hvts c hc)
      rw [renderToks_cons] at hlen ⊢
      have htd : takeDigits (cnt ++ renderToks ts) = (cnt, renderToks ts) :=
        takeDigits_append cnt (renderToks ts) hdig hnd
      rcases validTok_data_shape (sym, cnt) hvt with
        ⟨u, hsd, hu⟩ | ⟨u, l, hsd, hu, hl⟩
      · have hsym : sym = ⟨[u]⟩ := by
          cases sym with
          | mk d => simp only at hsd; rw [hsd]
        simp only at hsd
        rw [hsd] at hlen ⊢
        simp only [List.cons_append, List.nil_append, List.length_cons,
          List.length_append] at hlen ⊢
        cases hrest : cnt ++ renderToks ts with
        | nil =>
          have h2 : cnt = [] := by
            cases cnt with
            | nil => rfl
            | cons a as => simp at hrest
          have hr : renderToks ts = [] := by
            rw [h2] at hrest
            simpa using hrest
          have hts : ts = [] := renderToks_eq_nil ts hvts hr
          simp only [findAtomsF, hu, if_true]
          rw [hsym, h2, hts]
        | cons d cs2 =>
          have hdl : d.isLower = false := by
            cases hcnt : cnt with
            | nil =>
              apply not_lower_of_upper
              apply renderToks_head_upper ts hvts
              rw [hcnt] at hrest
              simp only [List.nil_append] at hrest
              rw [hrest]
              rfl
            | cons a as =>
              rw [hcnt] at hrest
              simp only [List.cons_append, List.cons.injEq] at hrest
              apply not_lower_of_digit
              rw [← hrest.1]
              exact hdig a (by rw [hcnt]; exact List.mem_cons_self a as)
          simp only [findAtomsF, hu, if_true, hdl, if_false]
          rw [← hrest, htd]
          have hlen2 : (renderToks ts).length ≤ fuel := by
            have hr : (cnt ++ renderToks ts).length = cs2.length + 1 := by
              rw [hrest]; simp
            simp only [List.length_append] at hr
            omega
          rw [ih ts hvts hlen2, hsym]
          simp
      · have hsym : sym = ⟨[u, l]⟩ := by
          cases sym with
          | mk d => simp only at hsd; rw [hsd]
        simp only at hsd
        rw [hsd] at hlen ⊢
        simp only [List.cons_append, List.nil_append, List.length_cons,
          List.length_append] at hlen ⊢
        simp only [findAtomsF, hu, if_true, hl, if_true]
        rw [htd]
        have hlen2 : (renderToks ts).length ≤ fuel := by
          omega
        rw [ih ts hvts hlen2, hsym]

/-- The scan of a written `(Element Count?)*` formula yields the dict of its
tokens: each symbol maps to its written count, implicitly 1. -/
theorem count_atoms_renderToks (ts : List (String × List Char))
    (hv : ∀ t ∈ ts, validTok t = true) :
    count_atoms ⟨renderToks ts⟩ =
      dictOfList (ts.map (fun t =>
        (t.1, if t.2.length = 0 then 1 else digitsToNat t.2))) := by
  unfold count_atoms findAtoms
  have hdata : (⟨renderToks ts⟩ : String).data = renderToks ts := rfl
  rw [hdata, findAtomsF_renderToks _ ts hv le_rfl]

theorem foldl_select_mem (o : Metabolite × ℚ) (os : List (Metabolite × ℚ)) :
    os.foldl (fun best x => if best.2 ≤ x.2 then x else best) o ∈ o :: os := by
  induction os generalizing o with
  | nil => simp [List.foldl_nil]
  | cons x xs ih =>
    simp only [List.foldl_cons]
    by_cases hc : o.2 ≤ x.2
    · rw [if_pos hc]
      exact List.mem_cons_of_mem _ (ih x)
    · rw [if_neg hc]
      rcases List.mem_cons.mp (ih o) with h1 | h1
      · rw [h1]; simp
      · exact List.mem_cons_of_mem _ (List.mem_cons_of_mem _ h1)

theorem foldl_select_max (os : List (Metabolite × ℚ)) :
    ∀ o y : Metabolite × ℚ, y ∈ o :: os →
    y.2 ≤ (os.foldl (fun best x => if best.2 ≤ x.2 then x else best) o).2 := by
  induction os with
  | nil =>
    intro o y hy
    simp only [List.foldl_nil]
    rcases List.mem_cons.mp hy with h | h
    · rw [h]
    · simp at h
  | cons x xs ih =>
    intro o y hy
    simp only [List.foldl_cons]
    have hb1 : o.2 ≤ (if o.2 ≤ x.2 then x else o).2 := by
      by_cases hc : o.2 ≤ x.2
      · rw [if_pos hc]; exact hc
      · rw [if_neg hc]
    have hb2 : x.2 ≤ (if o.2 ≤ x.2 then x else o).2 := by
      by_cases hc : o.2 ≤ x.2
      · rw [if_pos hc]
      · rw [if_neg hc]; exact le_of_not_le hc
    have hbres := ih (if o.2 ≤ x.2 then x else o)
      (if o.2 ≤ x.2 then x else o) (List.mem_cons_self _ _)
    rcases List.mem_cons.mp hy with h | h
    · rw [h]; exact le_trans hb1 hbres
    · rcases List.mem_cons.mp h with h2 | h2
      · rw [h2]; exact le_trans hb2 hbres
      · exact ih _ y (List.mem_cons_of_mem _ h2)

theorem selectPrecursor_mem (l : List (Metabolite × ℚ)) (p : Metabolite × ℚ)
    (h : selectPrecursor l = some p) : p ∈ l := by
  cases l with
  | nil => simp [selectPrecursor] at h
  | cons o os =>
    simp only [selectPrecursor, Option.some_inj] at h
    rw [← h]
    exact foldl_select_mem o os

theorem selectPrecursor_max (l : List (Metabolite × ℚ)) (p : Metabolite × ℚ)
    (h : selectPrecursor l = some p) : ∀ y ∈ l, y.2 ≤ p.2 := by
  cases l with
  | nil => simp [selectPrecursor] at h
  | cons o os =>
    simp only [selectPrecursor, Option.some_inj] at h
    intro y hy
    rw [← h]
    exact foldl_select_max os o y hy

theorem forall2_mem_right {α β : Type} {R : α → β → Prop} :
    ∀ {as : List α} {bs : List β}, List.Forall₂ R as bs → ∀ b ∈ bs,
    ∃ a ∈ as, R a b := by
  intro as bs h
  induction h with
  | nil => intro b hb; simp at hb
  | cons hr _ ih =>
    intro b hb
    rcases List.mem_cons.mp hb with h1 | h1
    · exact ⟨_, List.mem_cons_self _ _, h1 ▸ hr⟩
    · obtain ⟨a, ha, har⟩ := ih b h1
      exact ⟨a, List.mem_cons_of_mem _ ha, har⟩

theorem forall2_mem_left {α β : Type} {R : α → β → Prop} :
    ∀ {as : List α} {bs : List β}, List.Forall₂ R as bs → ∀ a ∈ as,
    ∃ b ∈ bs, R a b := by
  intro as bs h
  induction h with
  | nil => intro a ha; simp at ha
  | cons hr _ ih =>
    intro a ha
    rcases List.mem_cons.mp ha with h1 | h1
    · exact ⟨_, List.mem_cons_self _ _, h1 ▸ hr⟩
    · obtain ⟨b, hb, hbr⟩ := ih a h1
      exact ⟨b, List.mem_cons_of_mem _ hb, hbr⟩

/-- A successful scoring pass pairs every substrate with its linkage
strength, in order. -/
theorem mapM_sclEntry_forall2 (target : Metabolite) :
    ∀ (subs : List Metabolite) (options : List (Metabolite × ℚ)),
    subs.mapM (sclEntry target) = Except.ok options →
    List.Forall₂ (fun (c : Metabolite) (o : Metabolite × ℚ) =>
      o.1 = c ∧ sclOf target c = some o.2) subs options := by
  intro subs
  induction subs with
  | nil =>
    intro options h
    simp only [List.mapM_nil, pure, Except.pure, Except.ok.injEq] at h
    rw [← h]
    exact List.Forall₂.nil
  | cons c cs ih =>
    intro options h
    rw [List.mapM_cons] at h
    cases hscl : sclOf target c with
    | none =>
      rw [show sclEntry target c = Except.error PyErr.zeroDivisionError from
        by rw [sclEntry, hscl]] at h
      simp [Bind.bind, Except.bind] at h
    | some q =>
      rw [show sclEntry target c = Except.ok (c, q) from
        by rw [sclEntry, hscl]] at h
      cases hrest : cs.mapM (sclEntry target) with
      | error e =>
        rw [hrest] at h
        simp [Bind.bind, Except.bind] at h
      | ok os =>
        rw [hrest] at h
        simp only [Bind.bind, Except.bind, pure, Except.pure,
          Except.ok.injEq] at h
        rw [← h]
        exact List.Forall₂.cons ⟨rfl, hscl⟩ (ih os hrest)

/-- Characterization of a successful multi-substrate walk step: the new
target is one of the substrate candidates, its linkage strength is maximal
among them, and the exotic set grows by exactly the non-selected candidates
minus the adapted sources. -/
theorem branchStep_ok (adapted : Finset Metabolite) (target : Metabolite)
    (exotic : Finset Metabolite) (subs : List Metabolite)
    (t : Metabolite) (ex2 : Finset Metabolite)
    (h : branchStep adapted target exotic subs = Except.ok (t, ex2)) :
    t ∈ subs ∧
    (∀ c ∈ subs, ∀ qc qt, sclOf target c = some qc →
      sclOf target t = some qt → qc ≤ qt) ∧
    ex2 = exotic ∪
      ((subs.filter (fun c => decide (c ≠ t))).toFinset \ adapted) := by
  unfold branchStep at h
  cases hm : subs.mapM (sclEntry target) with
  | error e => rw [hm] at h; simp at h
  | ok options =>
    rw [hm] at h
    dsimp only at h
    cases hsel : selectPrecursor options with
    | none => rw [hsel] at h; simp at h
    | some p =>
      obtain ⟨tt, qt⟩ := p
      rw [hsel] at h
      simp only [Except.ok.injEq, Prod.mk.injEq] at h
      obtain ⟨ht, hex⟩ := h
      have hfa := mapM_sclEntry_forall2 target subs options hm
      have htm : (tt, qt) ∈ options :=
        selectPrecursor_mem options (tt, qt) hsel
      obtain ⟨c0, hc0, hc0r⟩ := forall2_mem_right hfa (tt, qt) htm
      have h1 : (tt, qt).1 = c0 := hc0r.1
      simp only at h1
      have htsubs : t ∈ subs := by
        rw [← ht, h1]; exact hc0
      have hscl_t : sclOf target t = some qt := by
        rw [← ht, h1]; exact hc0r.2
      refine ⟨htsubs, ?_, ?_⟩
      · intro c hc qc qt0 hqc hqt0
        obtain ⟨o, ho, hor⟩ := forall2_mem_left hfa c hc
        have hq : o.2 = qc := by
          have h2 := hor.2
          rw [hqc] at h2
          exact (Option.some_inj.mp h2).symm
        have hle := selectPrecursor_max options (tt, qt) hsel o ho
        have hqt : qt0 = qt := by
          rw [hscl_t] at hqt0
          exact (Option.some_inj.mp hqt0).symm
        rw [hqt, ← hq]
        exact hle
      · rw [← ht]
        exact hex.symm

end helpers

theorem dkeys_foldl_dinsert_mem {α β : Type} (f : β → String) (g : β → α) :
    ∀ (l : List β) (d : List (String × α)) (x : String),
    (x ∈ dkeys (l.foldl (fun d b => dinsert d (f b) (g b)) d)) ↔
      x ∈ dkeys d ∨ x ∈ l.map f := by
  intro l
  induction l with
  | nil => intro d x; simp
  | cons b bs ih =>
    intro d x
    simp only [List.foldl_cons, List.map_cons, List.mem_cons]
    rw [ih, dkeys_dinsert_mem]
    tauto

theorem dkeys_foldl_dinsert_nodup {α β : Type} (f : β → String) (g : β → α) :
    ∀ (l : List β) (d : List (String × α)), (dkeys d).Nodup →
    (dkeys (l.foldl (fun d b => dinsert d (f b) (g b)) d)).Nodup := by
  intro l
  induction l with
  | nil => intro d h; exact h
  | cons b bs ih =>
    intro d h
    exact ih _ (dkeys_dinsert_nodup _ _ _ h)

namespace tasks

theorem internRowTables_rxn_mem (row : RowIn)
    (rs : List (String × helpers.Reaction))
    (ms : List (String × helpers.Metabolite)) (x : String) :
    x ∈ dkeys (internRowTables row rs ms).1 ↔
      x ∈ dkeys rs ∨ x ∈ rowReactionIds row := by
  unfold internRowTables rowReactionIds
  rw [dkeys_foldl_dinsert_mem helpers.Reaction.id reaction_to_dict,
    dkeys_foldl_dinsert_mem helpers.Reaction.id reaction_to_dict]
  simp only [List.map_append, List.mem_append]
  tauto

theorem internRowTables_met_mem (row : RowIn)
    (rs : List (String × helpers.Reaction))
    (ms : List (String × helpers.Metabolite)) (x : String) :
    x ∈ dkeys (internRowTables row rs ms).2 ↔
      x ∈ dkeys ms ∨ x ∈ rowMetaboliteIds row := by
  unfold internRowTables rowMetaboliteIds
  rw [dkeys_foldl_dinsert_mem helpers.Metabolite.id metabolite_to_dict,
    dkeys_foldl_dinsert_mem helpers.Metabolite.id metabolite_to_dict]
  simp only [List.mem_append]
  tauto

theorem internRowTables_rxn_nodup (row : RowIn)
    (rs : List (String × helpers.Reaction))
    (ms : List (String × helpers.Metabolite))
    (h : (dkeys rs).Nodup) : (dkeys (internRowTables row rs ms).1).Nodup := by
  unfold internRowTables
  exact dkeys_foldl_dinsert_nodup _ _ _ _
    (dkeys_foldl_dinsert_nodup _ _ _ _ h)

theorem internRowTables_met_nodup (row : RowIn)
    (rs : List (String × helpers.Reaction))
    (ms : List (String × helpers.Metabolite))
    (h : (dkeys ms).Nodup) : (dkeys (internRowTables row rs ms).2).Nodup := by
  unfold internRowTables
  exact dkeys_foldl_dinsert_nodup _ _ _ _
    (dkeys_foldl_dinsert_nodup _ _ _ _ h)

/-- The three method tags are pairwise distinct string literals. -/
theorem concatenateRow_ok_fields (s : CState) (row : RowIn) (s2 : CState)
    (h : concatenateRow s row = Except.ok s2) :
    s2.reactions = (internRowTables row s.reactions s.metabolites).1 ∧
    s2.metabolites = (internRowTables row s.reactions s.metabolites).2 ∧
    s2.diff_fva = s.diff_fva ++
      (if row.method = "PathwayPredictor+DifferentialFVA"
        then [rowToOut row] else []) ∧
    s2.cofactor_swap = s.cofactor_swap ++
      (if row.method = "PathwayPredictor+CofactorSwap"
        then [rowToOut row] else []) ∧
    s2.opt_gene = s.opt_gene ++
      (if row.method = "PathwayPredictor+OptGene"
        then [rowToOut row] else []) := by
  unfold concatenateRow at h
  by_cases h1 : row.method = "PathwayPredictor+DifferentialFVA"
  · rw [if_pos h1] at h
    simp only [Except.ok.injEq] at h
    rw [← h]
    refine ⟨rfl, rfl, by rw [if_pos h1], ?_, ?_⟩
    · rw [if_neg (by rw [h1]; decide)]
      simp
    · rw [if_neg (by rw [h1]; decide)]
      simp
  · rw [if_neg h1] at h
    by_cases h2 : row.method = "PathwayPredictor+CofactorSwap"
    · rw [if_pos h2] at h
      simp only [Except.ok.injEq] at h
      rw [← h]
      refine ⟨rfl, rfl, by rw [if_neg h1]; simp, by rw [if_pos h2], ?_⟩
      rw [if_neg (by rw [h2]; decide)]
      simp
    · rw [if_neg h2] at h
      by_cases h3 : row.method = "PathwayPredictor+OptGene"
      · rw [if_pos h3] at h
        simp only [Except.ok.injEq] at h
        rw [← h]
        exact ⟨rfl, rfl, by rw [if_neg h1]; simp, by rw [if_neg h2]; simp,
          by rw [if_pos h3]⟩
      · rw [if_neg h3] at h
        simp at h

theorem concatenateRow_error_msg (s : CState) (row : RowIn) (e : String)
    (h : concatenateRow s row = Except.error e) :
    e = "Unknown design method." := by
  unfold concatenateRow at h
  by_cases h1 : row.method = "PathwayPredictor+DifferentialFVA"
  · rw [if_pos h1] at h; simp at h
  · rw [if_neg h1] at h
    by_cases h2 : row.method = "PathwayPredictor+CofactorSwap"
    · rw [if_pos h2] at h; simp at h
    · rw [if_neg h2] at h
      by_cases h3 : row.method = "PathwayPredictor+OptGene"
      · rw [if_pos h3] at h; simp at h
      · rw [if_neg h3] at h
        simp only [Except.error.injEq] at h
        exact h.symm

/-- The cumulative effect of the `concatenate` row loop on a run that
reaches the end: key membership of the two tables, preservation of key
uniqueness, and the three buckets extended by exactly the rows of their
method in order, converted to id form. -/
theorem concatenateSt_ok (rows : List RowIn) : ∀ s s' : CState,
    concatenateSt rows s = Except.ok s' →
    (∀ x, x ∈ dkeys s'.reactions ↔
      x ∈ dkeys s.reactions ∨ x ∈ (rows.map rowReactionIds).flatten) ∧
    (∀ x, x ∈ dkeys s'.metabolites ↔
      x ∈ dkeys s.metabolites ∨ x ∈ (rows.map rowMetaboliteIds).flatten) ∧
    ((dkeys s.reactions).Nodup → (dkeys s'.reactions).Nodup) ∧
    ((dkeys s.metabolites).Nodup → (dkeys s'.metabolites).Nodup) ∧
    s'.diff_fva = s.diff_fva ++ ((rows.filter (fun row =>
      decide (row.method = "PathwayPredictor+DifferentialFVA"))).map
        rowToOut) ∧
    s'.cofactor_swap = s.cofactor_swap ++ ((rows.filter (fun row =>
      decide (row.method = "PathwayPredictor+CofactorSwap"))).map
        rowToOut) ∧
    s'.opt_gene = s.opt_gene ++ ((rows.filter (fun row =>
      decide (row.method = "PathwayPredictor+OptGene"))).map rowToOut) := by
  induction rows with
  | nil =>
    intro s s' h
    simp only [concatenateSt, Except.ok.injEq] at h
    subst h
    simp
  | cons row rest ih =>
    intro s s' h
    simp only [concatenateSt] at h
    cases hr : concatenateRow s row with
    | error e => rw [hr] at h; simp at h
    | ok s2 =>
      rw [hr] at h
      obtain ⟨hm1, hm2, hn1, hn2, hb1, hb2, hb3⟩ := ih s2 s' h
      obtain ⟨hf1, hf2, hf3, hf4, hf5⟩ := concatenateRow_ok_fields s row s2 hr
      refine ⟨?_, ?_, ?_, ?_, ?_, ?_, ?_⟩
      · intro x
        rw [hm1 x, hf1, internRowTables_rxn_mem]
        simp only [List.map_cons, List.flatten_cons, List.mem_append]
        tauto
      · intro x
        rw [hm2 x, hf2, internRowTables_met_mem]
        simp only [List.map_cons, List.flatten_cons, List.mem_append]
        tauto
      · intro hnd
        exact hn1 (hf1 ▸ internRowTables_rxn_nodup row _ _ hnd)
      · intro hnd
        exact hn2 (hf2 ▸ internRowTables_met_nodup row _ _ hnd)
      · rw [hb1, hf3, List.filter_cons]
        by_cases hq : row.method = "PathwayPredictor+DifferentialFVA" <;>
          simp [hq]
      · rw [hb2, hf4, List.filter_cons]
        by_cases hq : row.method = "PathwayPredictor+CofactorSwap" <;>
          simp [hq]
      · rw [hb3, hf5, List.filter_cons]
        by_cases hq : row.method = "PathwayPredictor+OptGene" <;>
          simp [hq]

/-- The row loop fails with the unknown-method error whenever some row's
method tag is outside the enumerated set. -/
theorem concatenateSt_bad_method (rows : List RowIn) : ∀ (s : CState)
    (row : RowIn), row ∈ rows →
    ¬(row.method = "PathwayPredictor+DifferentialFVA" ∨
      row.method = "PathwayPredictor+CofactorSwap" ∨
      row.method = "PathwayPredictor+OptGene") →
    concatenateSt rows s = Except.error "Unknown design method." := by
  induction rows with
  | nil => intro s row hmem; simp at hmem
  | cons r rest ih =>
    intro s row hmem hbad
    rcases List.mem_cons.mp hmem with heq | hmem2
    · subst heq
      have hr : concatenateRow s row = Except.error "Unknown design method."
          := by
        unfold concatenateRow
        rw [if_neg (fun hh => hbad (Or.inl hh)),
          if_neg (fun hh => hbad (Or.inr (Or.inl hh))),
          if_neg (fun hh => hbad (Or.inr (Or.inr hh)))]
      simp only [concatenateSt]
      rw [hr]
    · simp only [concatenateSt]
      cases hr : concatenateRow s r with
      | error e =>
        have hmsg := concatenateRow_error_msg s r e hr
        dsimp only
        rw [hmsg]
      | ok s2 => exact ih s2 row hmem2 hbad

end tasks

namespace evaluate

/-- A populated value that passed a NaN guard is not NaN. -/
theorem isnan_guard {x v : FVal}
    (h : (if isnan x = true then none else some x) = some v) :
    isnan v = false := by
  split_ifs at h with hnan
  injection h with hxv
  rw [← hxv]
  cases hx : isnan x
  · rfl
  · exact absurd hx hnan

end evaluate

namespace worker

/-- The three claimed record-trace properties hold for any trace of the
shape submission, STARTED, terminal — provided the terminal record is
either SUCCESS with a populated result or FAILURE with a null result. -/
theorem trace_props_of_final (final : JobRecord)
    (hf : (final.status = Status.SUCCESS ∧ final.result ≠ none) ∨
      (final.status = Status.FAILURE ∧ final.result = none)) :
    ([(⟨Status.PENDING, none⟩ : JobRecord), ⟨Status.STARTED, none⟩,
      final].Chain' (fun a b => statusRank a.status < statusRank b.status)) ∧
    (∀ r ∈ [(⟨Status.PENDING, none⟩ : JobRecord), ⟨Status.STARTED, none⟩,
      final], (r.status = Status.PENDING ∨ r.status = Status.STARTED) →
      r.result = none) ∧
    (∀ r ∈ [(⟨Status.PENDING, none⟩ : JobRecord), ⟨Status.STARTED, none⟩,
      final], r.result ≠ none ↔ r.status = Status.SUCCESS) := by
  refine ⟨?_, ?_, ?_⟩
  · rcases hf with ⟨h1, _⟩ | ⟨h1, _⟩ <;>
      simp [List.chain'_cons, statusRank, h1]
  · intro r hr
    simp only [List.mem_cons, List.not_mem_nil, or_false] at hr
    rcases hr with rfl | rfl | rfl
    · intro _; rfl
    · intro _; rfl
    · rcases hf with ⟨h1, _⟩ | ⟨h1, h2⟩
      · intro hc
        exfalso
        rcases hc with hc | hc <;> rw [h1] at hc <;> exact
          Status.noConfusion hc
      · intro _
        exact h2
  · intro r hr
    simp only [List.mem_cons, List.not_mem_nil, or_false] at hr
    rcases hr with rfl | rfl | rfl
    · simp
    · simp
    · rcases hf with ⟨h1, h2⟩ | ⟨h1, h2⟩
      · exact ⟨fun _ => h1, fun _ => h2⟩
      · rw [h1, h2]
        simp

end worker

/-! # Claim theorems -/

/-- C1 (amended): starting from the submission record (status PENDING,
null result), the workflow's record trace moves monotonically
PENDING, then STARTED, then a terminal status; the result stays null while
the status is PENDING or STARTED; and a record's result is populated if
and only if its status is SUCCESS — in particular, on FAILURE the result
remains null (`fail_workflow` only sets the status), which corrects the
claimed "populated iff status in SUCCESS or FAILURE". -/
theorem c1_job_state_machine (env : worker.CeleryEnv) :
    ((worker.workflow_trace env ⟨worker.Status.PENDING, none⟩).Chain'
      (fun a b => worker.statusRank a.status < worker.statusRank b.status)) ∧
    (∀ r ∈ worker.workflow_trace env ⟨worker.Status.PENDING, none⟩,
      (r.status = worker.Status.PENDING ∨
        r.status = worker.Status.STARTED) → r.result = none) ∧
    (∀ r ∈ worker.workflow_trace env ⟨worker.Status.PENDING, none⟩,
      r.result ≠ none ↔ r.status = worker.Status.SUCCESS) := by
  obtain ⟨fp, fpw, opt⟩ := env
  unfold worker.workflow_trace
  cases fp with
  | failed => exact worker.trace_props_of_final _ (Or.inr ⟨rfl, rfl⟩)
  | ok u =>
    cases fpw with
    | failed => exact worker.trace_props_of_final _ (Or.inr ⟨rfl, rfl⟩)
    | ok v =>
      cases opt with
      | failed => exact worker.trace_props_of_final _ (Or.inr ⟨rfl, rfl⟩)
      | ok results =>
        dsimp only
        cases hc : tasks.concatenate results with
        | error e =>
          exact worker.trace_props_of_final _ (Or.inr ⟨rfl, rfl⟩)
        | ok payload =>
          exact worker.trace_props_of_final _
            (Or.inl ⟨rfl, Option.some_ne_none payload⟩)

/-- C1 is refuted as stated: on a failing pipeline the record trace ends at
status FAILURE with a still-null result, so "result is populated if and
only if status is SUCCESS or FAILURE" fails at the FAILURE record. -/
theorem c1_counterexample :
    worker.workflow_trace worker.exFailEnv
      ⟨worker.Status.PENDING, none⟩ =
    [⟨worker.Status.PENDING, none⟩, ⟨worker.Status.STARTED, none⟩,
      ⟨worker.Status.FAILURE, none⟩] := by
  decide

/-- C2: evaluating the worker `design` on a job whose first pathway's
cofactor-swap stage crashes in its child process: the workflow stops
immediately (the second pathway's tasks are never invoked) and no partial
result is saved — but the job record is left at STARTED with a null
result: the `TaskFailedException` handler only logs and acknowledges, and
the promised database update (worker/decorators.py docstring, `TODO:
update db state`) never happens, so the status never becomes FAILURE. -/
theorem c2_failed_stage_leaves_started :
    worker.design worker.exFailDesignEnv ⟨worker.Status.PENDING, none⟩ =
      (⟨worker.Status.STARTED, none⟩,
        [worker.TaskCall.findProductTask, worker.TaskCall.findPathwaysTask,
          worker.TaskCall.diffFvaTask 1,
          worker.TaskCall.cofactorSwapTask 1]) := by
  decide

/-- C3 (amended): in the OptGene evaluator an `OptimizationError` or
`ZeroDivisionError` anywhere in the per-design try block resolves all four
metrics to absent together, and no populated OptGene metric is ever NaN;
in the cofactor-swap evaluator the production metrics (product, yield) and
the growth metrics (biomass, fitness) are resolved to absent pairwise per
evaluation call, each pair independent of the other. -/
theorem c3_metric_absence :
    (∀ (inp : evaluate.OptGeneInputs) (pid bid : String),
      ((∃ e, inp.optimizeRes = Except.error e) ∨
        (∃ e, inp.pyieldRes = Except.error e) ∨
        (∃ e, inp.bpcyRes = Except.error e)) →
      evaluate.opt_gene_metrics inp pid bid = (none, none, none, none)) ∧
    (∀ (inp : evaluate.OptGeneInputs) (pid bid : String)
      (v : evaluate.FVal),
      ((evaluate.opt_gene_metrics inp pid bid).1 = some v ∨
        (evaluate.opt_gene_metrics inp pid bid).2.1 = some v ∨
        (evaluate.opt_gene_metrics inp pid bid).2.2.1 = some v ∨
        (evaluate.opt_gene_metrics inp pid bid).2.2.2 = some v) →
      evaluate.isnan v = false) ∧
    (∀ (pin : evaluate.ProductionInputs)
      (bin : evaluate.BiomassCoupledInputs) (pid bid : String)
      (e : evaluate.EvalErr), pin.optimizeRes = Except.error e →
      (evaluate.evaluate_cofactor_swap_metrics pin bin pid bid).product =
        none ∧
      (evaluate.evaluate_cofactor_swap_metrics pin bin pid bid).prodYield =
        none) ∧
    (∀ (pin : evaluate.ProductionInputs)
      (bin : evaluate.BiomassCoupledInputs) (pid bid : String)
      (e : evaluate.EvalErr), bin.pfbaRes = Except.error e →
      (evaluate.evaluate_cofactor_swap_metrics pin bin pid bid).biomass =
        none ∧
      (evaluate.evaluate_cofactor_swap_metrics pin bin pid bid).fitness =
        none) := by
  refine ⟨?_, ?_, ?_, ?_⟩
  · intro inp pid bid hfail
    rcases hfail with ⟨e, he⟩ | ⟨e, he⟩ | ⟨e, he⟩
    · simp [evaluate.opt_gene_metrics, he]
    · cases ho : inp.optimizeRes with
      | error e2 => simp [evaluate.opt_gene_metrics, ho]
      | ok sol => simp [evaluate.opt_gene_metrics, ho, he]
    · cases ho : inp.optimizeRes with
      | error e2 => simp [evaluate.opt_gene_metrics, ho]
      | ok sol =>
        cases hpy : inp.pyieldRes with
        | error e2 => simp [evaluate.opt_gene_metrics, ho, hpy]
        | ok py => simp [evaluate.opt_gene_metrics, ho, hpy, he]
  · intro inp pid bid v hv
    unfold evaluate.opt_gene_metrics at hv
    cases ho : inp.optimizeRes with
    | error e => rw [ho] at hv; simp at hv
    | ok sol =>
      rw [ho] at hv
      cases hpy : inp.pyieldRes with
      | error e => rw [hpy] at hv; simp at hv
      | ok py =>
        rw [hpy] at hv
        cases hbp : inp.bpcyRes with
        | error e => rw [hbp] at hv; simp at hv
        | ok bp =>
          rw [hbp] at hv
          dsimp only at hv
          rcases hv with hv | hv | hv | hv <;>
            exact evaluate.isnan_guard hv
  · intro pin bin pid bid e he
    unfold evaluate.evaluate_cofactor_swap_metrics evaluate.evaluate_production
    rw [he]
    exact ⟨rfl, rfl⟩
  · intro pin bin pid bid e he
    unfold evaluate.evaluate_cofactor_swap_metrics
      evaluate.evaluate_biomass_coupled_production
    rw [he]
    exact ⟨rfl, rfl⟩

/-- Witness for C3 (amended): the OptGene metrics at a failing solve are
all absent together, and a failing production solve leaves the
cofactor-swap row's product metric absent. -/
theorem c3_metric_absence_witness :
    evaluate.opt_gene_metrics evaluate.exOGI "DM_p" "BIOMASS" =
      (none, none, none, none) ∧
    (evaluate.evaluate_cofactor_swap_metrics evaluate.exProdFail
      evaluate.exBioOk "DM_p" "BIOMASS").product = none :=
  ⟨c3_metric_absence.1 evaluate.exOGI "DM_p" "BIOMASS"
      (Or.inl ⟨evaluate.EvalErr.optimizationError, rfl⟩),
    (c3_metric_absence.2.2.1 evaluate.exProdFail evaluate.exBioOk
      "DM_p" "BIOMASS" evaluate.EvalErr.optimizationError rfl).1⟩

/-- C3 is refuted as stated: in the cofactor-swap evaluator an arithmetic
failure of the production solve leaves the row with product and yield
absent but biomass and fitness populated — a partially populated subset of
the four metrics. -/
theorem c3_counterexample :
    (evaluate.evaluate_cofactor_swap_metrics evaluate.exProdFail
      evaluate.exBioOk "DM_p" "BIOMASS").product = none ∧
    (evaluate.evaluate_cofactor_swap_metrics evaluate.exProdFail
      evaluate.exBioOk "DM_p" "BIOMASS").prodYield = none ∧
    (evaluate.evaluate_cofactor_swap_metrics evaluate.exProdFail
      evaluate.exBioOk "DM_p" "BIOMASS").biomass =
      some (evaluate.FVal.fin 1) ∧
    (evaluate.evaluate_cofactor_swap_metrics evaluate.exProdFail
      evaluate.exBioOk "DM_p" "BIOMASS").fitness =
      some (evaluate.FVal.fin 2) := by
  with_unfolding_all decide

/-- C4: for any list of design result rows fed to the aggregator, every
reaction id and metabolite id it interns appears exactly once as a key of
the output lookup tables (membership characterization plus no duplicate
keys) no matter how many rows reference it; re-interning an already
present binding is a no-op, not an error; aggregation returns the payload
built from these tables; and every in-row reference of the output rows is
the bare id (the buckets are exactly the input rows converted by
`rowToOut`, which maps every reference to its id). -/
theorem c4_aggregation_interning (results : List (List tasks.RowIn))
    (s' : tasks.CState)
    (h : tasks.concatenateSt results.flatten tasks.initCState =
      Except.ok s') :
    (∀ x, x ∈ dkeys s'.reactions ↔
      x ∈ (results.flatten.map tasks.rowReactionIds).flatten) ∧
    (dkeys s'.reactions).Nodup ∧
    (∀ x, x ∈ dkeys s'.metabolites ↔
      x ∈ (results.flatten.map tasks.rowMetaboliteIds).flatten) ∧
    (dkeys s'.metabolites).Nodup ∧
    (∀ {α : Type} (d : List (String × α)) (k : String) (v : α),
      dlookup d k = some v → dinsert d k v = d) ∧
    tasks.concatenate results = Except.ok
      [("diff_fva", tasks.PValue.rows s'.diff_fva),
        ("cofactor_swap", tasks.PValue.rows s'.cofactor_swap),
        ("opt_gene", tasks.PValue.rows s'.opt_gene),
        ("reactions", tasks.PValue.rxnTable s'.reactions),
        ("metabolites", tasks.PValue.metTable s'.metabolites)] ∧
    s'.diff_fva = (results.flatten.filter (fun row =>
      decide (row.method = "PathwayPredictor+DifferentialFVA"))).map
        tasks.rowToOut ∧
    s'.cofactor_swap = (results.flatten.filter (fun row =>
      decide (row.method = "PathwayPredictor+CofactorSwap"))).map
        tasks.rowToOut ∧
    s'.opt_gene = (results.flatten.filter (fun row =>
      decide (row.method = "PathwayPredictor+OptGene"))).map
        tasks.rowToOut := by
  obtain ⟨hm1, hm2, hn1, hn2, hb1, hb2, hb3⟩ :=
    tasks.concatenateSt_ok results.flatten tasks.initCState s' h
  refine ⟨?_, ?_, ?_, ?_, ?_, ?_, ?_, ?_, ?_⟩
  · intro x
    rw [hm1 x]
    simp [tasks.initCState, dkeys]
  · exact hn1 (by simp [tasks.initCState, dkeys])
  · intro x
    rw [hm2 x]
    simp [tasks.initCState, dkeys]
  · exact hn2 (by simp [tasks.initCState, dkeys])
  · exact fun d k v hv => dinsert_idempotent d k v hv
  · unfold tasks.concatenate
    rw [h]
  · rw [hb1]
    simp [tasks.initCState]
  · rw [hb2]
    simp [tasks.initCState]
  · rw [hb3]
    simp [tasks.initCState]

/-- Witness for C4 at one concrete diff-FVA row referencing reaction R
with metabolites A, B, P. -/
theorem c4_aggregation_interning_witness :
    (∀ x, x ∈ dkeys tasks.exAggState.reactions ↔
      x ∈ (([[tasks.exRowDF]] : List (List tasks.RowIn)).flatten.map
        tasks.rowReactionIds).flatten) ∧
    (dkeys tasks.exAggState.reactions).Nodup ∧
    (∀ x, x ∈ dkeys tasks.exAggState.metabolites ↔
      x ∈ (([[tasks.exRowDF]] : List (List tasks.RowIn)).flatten.map
        tasks.rowMetaboliteIds).flatten) ∧
    (dkeys tasks.exAggState.metabolites).Nodup ∧
    (∀ {α : Type} (d : List (String × α)) (k : String) (v : α),
      dlookup d k = some v → dinsert d k v = d) ∧
    tasks.concatenate [[tasks.exRowDF]] = Except.ok
      [("diff_fva", tasks.PValue.rows tasks.exAggState.diff_fva),
        ("cofactor_swap", tasks.PValue.rows tasks.exAggState.cofactor_swap),
        ("opt_gene", tasks.PValue.rows tasks.exAggState.opt_gene),
        ("reactions", tasks.PValue.rxnTable tasks.exAggState.reactions),
        ("metabolites", tasks.PValue.metTable
          tasks.exAggState.metabolites)] ∧
    tasks.exAggState.diff_fva =
      (([[tasks.exRowDF]] : List (List tasks.RowIn)).flatten.filter
        (fun row => decide
          (row.method = "PathwayPredictor+DifferentialFVA"))).map
        tasks.rowToOut ∧
    tasks.exAggState.cofactor_swap =
      (([[tasks.exRowDF]] : List (List tasks.RowIn)).flatten.filter
        (fun row => decide
          (row.method = "PathwayPredictor+CofactorSwap"))).map
        tasks.rowToOut ∧
    tasks.exAggState.opt_gene =
      (([[tasks.exRowDF]] : List (List tasks.RowIn)).flatten.filter
        (fun row => decide (row.method = "PathwayPredictor+OptGene"))).map
        tasks.rowToOut :=
  c4_aggregation_interning [[tasks.exRowDF]] tasks.exAggState (by decide)

/-- C5: a row carrying a method tag outside the three enumerated optimizer
methods makes aggregation fail by raising the unknown-method error, and no
output is produced at all — in particular the row appears in none of the
three method buckets. -/
theorem c5_unknown_method (results : List (List tasks.RowIn))
    (row : tasks.RowIn) (hmem : row ∈ results.flatten)
    (hbad : ¬(row.method = "PathwayPredictor+DifferentialFVA" ∨
      row.method = "PathwayPredictor+CofactorSwap" ∨
      row.method = "PathwayPredictor+OptGene")) :
    tasks.concatenate results = Except.error "Unknown design method." ∧
    ∀ p, tasks.concatenate results ≠ Except.ok p := by
  have h := tasks.concatenateSt_bad_method results.flatten
    tasks.initCState row hmem hbad
  constructor
  · unfold tasks.concatenate
    rw [h]
  · intro p hp
    unfold tasks.concatenate at hp
    rw [h] at hp
    simp at hp

/-- Witness for C5 at a concrete row with method tag "nonsense". -/
theorem c5_unknown_method_witness :
    tasks.concatenate [[tasks.exRowBad]] =
      Except.error "Unknown design method." :=
  (c5_unknown_method [[tasks.exRowBad]] tasks.exRowBad (by decide)
    (by decide)).1

/-- C6 (amended): the differential-FVA and OptGene optimizations revert
every temporary modification (their bodies are scoped by `with model:`),
so the host model after those calls equals the model before; the
cofactor-swap optimization, by contrast, permanently fixes the biomass
lower bound at 5% of maximum growth, applies the pathway, and sets the
objective to the product — these modifications persist after the call. -/
theorem c6_optimizer_frame :
    (∀ {δ : Type} (p : designer.DPathway) (m : designer.ModelState)
      (run : designer.ModelState → Option δ),
      (designer.differential_fva_optimization p m run).2 = m) ∧
    (∀ {δ : Type} (p : designer.DPathway) (m : designer.ModelState)
      (run : designer.ModelState → δ),
      (designer.opt_gene p m run).2 = m) ∧
    (∀ {δ : Type} (p : designer.DPathway) (m : designer.ModelState)
      (slim : designer.ModelState → ℚ) (run : designer.ModelState → δ),
      (designer.cofactor_swap_optimization p m slim run).2 =
        { designer.apply_pathway p
            (designer.set_lower_bound m m.biomass
              (0.05 * slim { m with objective := m.biomass })) with
          objective := p.product_id }) :=
  ⟨fun _ _ _ => rfl, fun _ _ _ => rfl, fun _ _ _ _ => rfl⟩

/-- C6 is refuted as stated: after a cofactor-swap optimization call the
host model differs from the model before the call — the biomass lower
bound is raised to 5% of the computed growth, the pathway reactions remain
added, and the objective remains the product demand. -/
theorem c6_counterexample :
    (designer.cofactor_swap_optimization designer.exDPathway
      designer.exModel (fun _ => 10) (fun _ => (0 : ℕ))).2 ≠
      designer.exModel := by
  with_unfolding_all decide

/-- C7 (amended): the payload returned by the celery aggregation has
exactly the five keys diff_fva, cofactor_swap, opt_gene, reactions and
metabolites; but the payload persisted by the worker orchestrator on
success carries a SIXTH key `target` (the first pathway's product id, or
the empty string) in addition to the five. -/
theorem c7_payload_keys :
    (∀ (results : List (List tasks.RowIn))
      (p : List (String × tasks.PValue)),
      tasks.concatenate results = Except.ok p →
      p.map Prod.fst = ["diff_fva", "cofactor_swap", "opt_gene",
        "reactions", "metabolites"]) ∧
    (∀ (env : worker.DesignEnv) (record : worker.JobRecord)
      (p : List (String × tasks.PValue)), record.result = none →
      ((worker.design env record).1).result = some p →
      p.map Prod.fst = ["diff_fva", "opt_gene", "cofactor_swap",
        "reactions", "metabolites", "target"]) := by
  constructor
  · intro results p hp
    unfold tasks.concatenate at hp
    cases hs : tasks.concatenateSt results.flatten tasks.initCState with
    | error e => rw [hs] at hp; simp at hp
    | ok s =>
      rw [hs] at hp
      simp only [Except.ok.injEq] at hp
      rw [← hp]
      rfl
  · intro env record p hres hp
    unfold worker.design at hp
    cases hfp : env.find_product with
    | failed =>
      rw [hfp] at hp
      simp [worker.save, hres] at hp
    | ok u =>
      rw [hfp] at hp
      cases hfw : env.find_pathways with
      | failed =>
        rw [hfw] at hp
        simp [worker.save, hres] at hp
      | ok pathways =>
        rw [hfw] at hp
        dsimp only at hp
        cases hdl : worker.designLoop env pathways 1 tasks.initCState with
        | mk os calls =>
          rw [hdl] at hp
          cases os with
          | none => simp [worker.save, hres] at hp
          | some s =>
            simp only [worker.save, Option.some_inj] at hp
            rw [← hp]
            rfl

/-- C7 is refuted as stated: for a successful worker run the persisted
payload's key list carries "target" and is not the claimed five keys. -/
theorem c7_counterexample :
    ((worker.design worker.exDesignEnv
      ⟨worker.Status.PENDING, none⟩).1).result = some worker.exPayload6 ∧
    worker.exPayload6.map Prod.fst ≠
      ["diff_fva", "opt_gene", "cofactor_swap", "reactions",
        "metabolites"] ∧
    "target" ∈ worker.exPayload6.map Prod.fst := by
  decide

/-- Witness for C7 (amended) at a concrete aggregation and a concrete
worker run. -/
theorem c7_payload_keys_witness :
    ([("diff_fva", tasks.PValue.rows tasks.exAggState.diff_fva),
      ("cofactor_swap", tasks.PValue.rows tasks.exAggState.cofactor_swap),
      ("opt_gene", tasks.PValue.rows tasks.exAggState.opt_gene),
      ("reactions", tasks.PValue.rxnTable tasks.exAggState.reactions),
      ("metabolites", tasks.PValue.metTable
        tasks.exAggState.metabolites)].map Prod.fst =
      ["diff_fva", "cofactor_swap", "opt_gene", "reactions",
        "metabolites"]) ∧
    worker.exPayload6.map Prod.fst = ["diff_fva", "opt_gene",
      "cofactor_swap", "reactions", "metabolites", "target"] :=
  ⟨c7_payload_keys.1 [[tasks.exRowDF]] _ (by decide),
    c7_payload_keys.2 worker.exDesignEnv ⟨worker.Status.PENDING, none⟩
      worker.exPayload6 rfl (by decide)⟩

/-- C8 (amended): at every walk step whose reaction has two or more
substrate candidates, the candidate with the highest chemical-linkage
strength to the current target compound is selected as the true precursor
for the continued walk, and every other candidate at that step THAT IS NOT
AN ADAPTED SOURCE COMPOUND is classified as an exotic cofactor (the source
subtracts `adapted_sources` before classifying). -/
theorem c8_branch_selection (adapted : Finset helpers.Metabolite)
    (target : helpers.Metabolite) (exotic : Finset helpers.Metabolite)
    (subs : List helpers.Metabolite) (t : helpers.Metabolite)
    (ex2 : Finset helpers.Metabolite)
    (h : helpers.branchStep adapted target exotic subs =
      Except.ok (t, ex2)) :
    t ∈ subs ∧
    (∀ c ∈ subs, ∀ qc qt, helpers.sclOf target c = some qc →
      helpers.sclOf target t = some qt → qc ≤ qt) ∧
    ex2 = exotic ∪
      ((subs.filter (fun c => decide (c ≠ t))).toFinset \ adapted) :=
  helpers.branchStep_ok adapted target exotic subs t ex2 h

/-- Witness for C8 (amended) at the concrete branching step with
candidates A (linkage 1) and B (linkage 0, adapted source). -/
theorem c8_branch_selection_witness :
    helpers.exA ∈ [helpers.exA, helpers.exB] ∧
    (∀ c ∈ [helpers.exA, helpers.exB], ∀ qc qt,
      helpers.sclOf helpers.exP c = some qc →
      helpers.sclOf helpers.exP helpers.exA = some qt → qc ≤ qt) ∧
    (∅ : Finset helpers.Metabolite) = ∅ ∪
      (([helpers.exA, helpers.exB].filter
        (fun c => decide (c ≠ helpers.exA))).toFinset \ {helpers.exB}) :=
  c8_branch_selection {helpers.exB} helpers.exP ∅
    [helpers.exA, helpers.exB] helpers.exA ∅
    (by with_unfolding_all decide)

/-- C8 is refuted as stated: in the concrete linear pathway, the branching
reaction R has the two substrate candidates A and B, A is selected as the
precursor (linkage strength 1 versus 0), yet B — an adapted source — is
NOT classified as an exotic cofactor: the walk returns the empty set. -/
theorem c8_counterexample :
    helpers.identify_exotic_cofactors helpers.exPathway helpers.exSolution
      (1 / 10000000) 10 = Except.ok (some ∅) ∧
    helpers.exR.reactants = [helpers.exA, helpers.exB] ∧
    helpers.sclOf helpers.exP helpers.exA = some 1 ∧
    helpers.sclOf helpers.exP helpers.exB = some 0 ∧
    helpers.exB ∉ (∅ : Finset helpers.Metabolite) := by
  with_unfolding_all decide

/-- C9: for every molecular formula string of the form
`(Element Count?)*`, `count_atoms` returns the map sending each element
symbol (one uppercase letter with an optional lowercase letter) to its
written count, with implicit count 1 when the count digits are absent; in
particular "CHO" maps to C:1, H:1, O:1; "C12HO" to C:12, H:1, O:1; and
"CoLi3Mn11" to Co:1, Li:3, Mn:11. -/
theorem c9_count_atoms (ts : List (String × List Char))
    (hv : ∀ t ∈ ts, helpers.validTok t = true) :
    helpers.count_atoms ⟨helpers.renderToks ts⟩ =
      dictOfList (ts.map (fun t =>
        (t.1, if t.2.length = 0 then 1 else helpers.digitsToNat t.2))) ∧
    helpers.count_atoms "CHO" = [("C", 1), ("H", 1), ("O", 1)] ∧
    helpers.count_atoms "C12HO" = [("C", 12), ("H", 1), ("O", 1)] ∧
    helpers.count_atoms "CoLi3Mn11" =
      [("Co", 1), ("Li", 3), ("Mn", 11)] :=
  ⟨helpers.count_atoms_renderToks ts hv, by decide, by decide, by decide⟩

/-- Witness for C9 at the written tokens of "CoLi3Mn11". -/
theorem c9_count_atoms_witness :
    helpers.count_atoms ⟨helpers.renderToks
      [("Co", []), ("Li", ['3']), ("Mn", ['1', '1'])]⟩ =
      dictOfList ([("Co", []), ("Li", ['3']),
        ("Mn", ['1', '1'])].map (fun t =>
          (t.1, if t.2.length = 0 then 1 else helpers.digitsToNat t.2))) :=
  (c9_count_atoms [("Co", []), ("Li", ['3']), ("Mn", ['1', '1'])]
    (by decide)).1

/-- C10: `count_atoms` never fails on any input string — it always returns
a well-formed dict (no duplicate keys) — and when the same element symbol
occurs more than once the map holds the count of its LAST occurrence only
(repeated occurrences overwrite, never sum): "C2C3" yields C:3, and not
C:5. -/
theorem c10_count_atoms_overwrite :
    (∀ formula : String, (dkeys (helpers.count_atoms formula)).Nodup) ∧
    (∀ formula k : String,
      dlookup (helpers.count_atoms formula) k =
        Option.map Prod.snd
          ((((helpers.findAtoms formula.data).map (fun m =>
            (m.1, if m.2.length = 0 then 1
              else helpers.digitsToNat m.2))).reverse).find?
            (fun p => p.1 = k))) ∧
    helpers.count_atoms "C2C3" = [("C", 3)] ∧
    helpers.count_atoms "C2C3" ≠ [("C", 5)] := by
  refine ⟨?_, ?_, by decide, by decide⟩
  · intro formula
    exact dkeys_dictOfList_nodup _
  · intro formula k
    unfold helpers.count_atoms dictOfList
    rw [dlookup_foldl_dinsert]
    cases hf : (((helpers.findAtoms formula.data).map (fun m =>
        (m.1, if m.2.length = 0 then 1
          else helpers.digitsToNat m.2))).reverse).find?
        (fun p => p.1 = k) with
    | none => simp [Option.orElse, dlookup]
    | some q => simp [Option.orElse]

end MetabolicNinja
